import Mathlib

/-!
# Verification of the NEA client-side wizard scripts

This file gives a shallow embedding of the multi-step form-wizard code of the
repository (`static/add_student.js`, `static/flag_student.js`) and of the two
small validation utilities (`static/subject_validation.js`,
`static/date_validation.js`), and proves the behavioural properties stated in
the specification against it.

`add_student.js` contains two distinct wizard implementations:

* the `DOMContentLoaded` variant (lines 1-96), embedded in namespace
  `AddStudent`;
* the top-level "regForm" variant (lines 97-168), embedded in namespace
  `RegForm`.

`flag_student.js` contains a third variant (lines 90-175), embedded in
namespace `FlagStudent`.

DOM conventions used by the embedding:

* A form control (the elements returned by
  `tab.querySelectorAll('input, select, textarea')`) is an `Elem`; the
  `invalid` CSS class is modelled as the Boolean field `Elem.invalid`
  (`classList.add`/`classList.remove` toggle it; the regForm variant's
  `className += " invalid"`, which only ever adds the class, sets it to
  `true` and never resets it).
* The class string of a step-indicator entry (`.step`) is modelled as its
  list of class tokens (`List String`).  `classList.add`/`classList.remove`
  are set-like (`clAdd`/`clRemove`); the string-manipulating variants
  `className.replace(' active', '')` / `className += ' active'` remove the
  first occurrence of the token / append a (possibly duplicate) token,
  which matches the string behaviour whenever the token is not the first
  class of the entry (indicator entries carry a base class such as `step`).
* JavaScript array indexing with a possibly negative or too large index is
  modelled with `List` lookups returning `Option`; writes through such an
  index are modelled as no-ops (`modifyIdxI`/`setIdxI`).  Where the source
  would throw a `TypeError` on such an access (the unguarded regForm
  variant), the embedding is likewise a no-op and the theorems only use
  in-range indices.
-/

/-- JavaScript `String.prototype.trim`: strips leading and trailing
whitespace from the character sequence of the string. -/
def jsTrim (s : String) : String :=
  String.mk (((s.data.dropWhile Char.isWhitespace).reverse.dropWhile Char.isWhitespace).reverse)

/-- Update the element at (0-based) index `i` of a list; a no-op when `i` is
out of range (JavaScript guard `if (arr[i]) ...`). -/
def modifyIdx {α : Type} (l : List α) (i : Nat) (f : α → α) : List α :=
  match l[i]? with
  | some a => l.set i (f a)
  | none => l

/-- Update at a JavaScript (integer) index; a no-op for negative or
out-of-range indices. -/
def modifyIdxI {α : Type} (l : List α) (i : Int) (f : α → α) : List α :=
  if 0 ≤ i then modifyIdx l i.toNat f else l

/-- Write at a JavaScript (integer) index; a no-op out of range. -/
def setIdxI {α : Type} (l : List α) (i : Int) (a : α) : List α :=
  modifyIdxI l i (fun _ => a)

/-- `DOMTokenList.add tok`: appends the token unless it is already present. -/
def clAdd (tok : String) (cls : List String) : List String :=
  if cls.contains tok then cls else cls ++ [tok]

/-- `DOMTokenList.remove tok`: removes the token. -/
def clRemove (tok : String) (cls : List String) : List String :=
  cls.filter (fun c => c != tok)

/-- One form control as the wizard scripts see it: its element tag
(`"input"`, `"select"` or `"textarea"`), its `type`, `name`, `value` and
`checked`/`required` attributes, whether it currently carries the `invalid`
class, and the index of the `.tab` panel that contains it. -/
structure Elem where
  tag : String
  type : String
  name : String
  value : String
  checked : Bool
  required : Bool
  invalid : Bool
  tab : Nat
deriving DecidableEq, Repr

/-- The element with its `invalid` mark cleared.  Validation only ever
toggles the `invalid` class, so `core` is the part of an element that no
`validateForm` variant changes. -/
def Elem.core (e : Elem) : Elem := { e with invalid := false }

/-- Indices, in document order, of the form controls inside tab `t`: the
iteration order of `tab.querySelectorAll('input, select, textarea')`. -/
def tabIdxs (elems : List Elem) (t : Nat) : List Nat :=
  (List.range elems.length).filter fun i =>
    match elems[i]? with
    | some e => e.tab == t
    | none => false

/-- Indices, in document order, of the `input`-tagged controls inside tab
`t`: the iteration order of `x[currentTab].getElementsByTagName("input")`
used by the regForm variant. -/
def inputTabIdxs (elems : List Elem) (t : Nat) : List Nat :=
  (List.range elems.length).filter fun i =>
    match elems[i]? with
    | some e => e.tab == t && e.tag == "input"
    | none => false

namespace AddStudent

/-- `Array.prototype.slice.call(document.querySelectorAll('input[name="nm"]'))
.some(r => r.checked)` (add_student.js line 68): whether any `input` element
of the document with the given `name` is checked.  The query is
document-wide, not restricted to the current tab. -/
def anyChecked (elems : List Elem) (nm : String) : Bool :=
  elems.any fun e => e.tag == "input" && e.name == nm && e.checked

/-- Lines 71-72 of add_student.js: add the `invalid` class to every `input`
element of the document with the given `name` (visual feedback for a radio
group with no checked member). -/
def markGroup (elems : List Elem) (nm : String) : List Elem :=
  elems.map fun e =>
    if e.tag == "input" && e.name == nm then { e with invalid := true } else e

/-- The field loop of `validateForm` (add_student.js lines 57-80), iterating
over the element indices `idxs` of the current tab.  Each iteration first
clears the element's `invalid` class; a `required` radio is checked through
its document-wide name group (marking the whole group invalid on failure), a
`required` non-radio fails when its value is empty or whitespace-only.  The
`classList.remove('invalid')` + `classList.add('invalid')` pair on a failing
text field is collapsed into a single write of the flag. -/
def vfLoop (elems : List Elem) (idxs : List Nat) (valid : Bool) : List Elem × Bool :=
  match idxs with
  | [] => (elems, valid)
  | i :: rest =>
    match elems[i]? with
    | none => vfLoop elems rest valid
    | some e =>
      if e.required then
        if e.type == "radio" then
          if anyChecked (elems.set i { e with invalid := false }) e.name then
            vfLoop (elems.set i { e with invalid := false }) rest valid
          else
            vfLoop (markGroup (elems.set i { e with invalid := false }) e.name) rest false
        else if e.value == "" || jsTrim e.value == "" then
          vfLoop (elems.set i { e with invalid := true }) rest false
        else
          vfLoop (elems.set i { e with invalid := false }) rest valid
      else
        vfLoop (elems.set i { e with invalid := false }) rest valid

/-- `validateForm` of add_student.js (lines 50-87).  `tabCount` is the number
of `.tab` panels; when `currentTab` is out of range the source's
`if (!tab) return true` yields `true` with no change.  The final
`firstInvalid.focus()` has no modelled state.  This variant does not touch
the step indicator. -/
def validateForm (tabCount : Nat) (elems : List Elem) (currentTab : Int) :
    List Elem × Bool :=
  if 0 ≤ currentTab ∧ currentTab < (tabCount : Int) then
    vfLoop elems (tabIdxs elems currentTab.toNat) true
  else (elems, true)

end AddStudent

example :
    (AddStudent.validateForm 1
      [⟨"input", "text", "fname", "", false, true, false, 0⟩] 0).2 = false := by decide

example :
    (AddStudent.validateForm 1
      [⟨"input", "text", "fname", "Alice", false, true, false, 0⟩] 0).2 = true := by decide

example :
    (AddStudent.validateForm 1
      [⟨"input", "text", "fname", " ", false, true, false, 0⟩] 0).2 = false := by decide

example :
    (AddStudent.validateForm 1
      [⟨"input", "radio", "yg", "12", false, true, false, 0⟩,
       ⟨"input", "radio", "yg", "13", true, true, false, 0⟩] 0).2 = true := by decide

example :
    (AddStudent.validateForm 1
      [⟨"input", "radio", "yg", "12", false, true, false, 0⟩,
       ⟨"input", "radio", "yg", "13", false, true, false, 0⟩] 0) =
      ([⟨"input", "radio", "yg", "12", false, true, true, 0⟩,
        ⟨"input", "radio", "yg", "13", false, true, true, 0⟩], false) := by decide

namespace FlagStudent

/-- The field loop of `validateForm` (flag_student.js lines 146-157).  Each
iteration clears the element's `invalid` class, then re-adds it when the
element is `required` and its `value` is empty.  There is no radio-group
handling and no whitespace trimming in this variant. -/
def vfLoop (elems : List Elem) (idxs : List Nat) (valid : Bool) : List Elem × Bool :=
  match idxs with
  | [] => (elems, valid)
  | i :: rest =>
    match elems[i]? with
    | none => vfLoop elems rest valid
    | some e =>
      if e.required && e.value == "" then
        vfLoop (elems.set i { e with invalid := true }) rest false
      else
        vfLoop (elems.set i { e with invalid := false }) rest valid

/-- `validateForm` of flag_student.js (lines 139-166).  On success it adds the
`finish` class to the step-indicator entry of the current tab (guarded by
`if (steps[currentTab])`); when `currentTab` is out of range the source's
`if (!tab) return true` yields `true` with no change. -/
def validateForm (tabCount : Nat) (elems : List Elem) (steps : List (List String))
    (currentTab : Int) : (List Elem × List (List String)) × Bool :=
  if 0 ≤ currentTab ∧ currentTab < (tabCount : Int) then
    match vfLoop elems (tabIdxs elems currentTab.toNat) true with
    | (es, true) => ((es, modifyIdxI steps currentTab (clAdd "finish")), true)
    | (es, false) => ((es, steps), false)
  else ((elems, steps), true)

end FlagStudent

example :
    (FlagStudent.validateForm 1
      [⟨"input", "radio", "yg", "12", false, true, false, 0⟩,
       ⟨"input", "radio", "yg", "13", false, true, false, 0⟩] [["step"]] 0).2 = true := by
  decide

example :
    (FlagStudent.validateForm 1
      [⟨"input", "text", "fname", "", false, true, false, 0⟩] [["step"]] 0) =
      (([⟨"input", "text", "fname", "", false, true, true, 0⟩], [["step"]]), false) := by
  decide

example :
    (FlagStudent.validateForm 1
      [⟨"input", "text", "fname", "Alice", false, true, true, 0⟩] [["step"]] 0) =
      (([⟨"input", "text", "fname", "Alice", false, true, false, 0⟩],
        [["step", "finish"]]), true) := by decide

namespace RegForm

/-- The field loop of the regForm `validateForm` (add_student.js lines
144-152), iterating over the `input`-tagged controls of the current tab.  Any
element with an empty `value` gets the `invalid` class appended (there is no
`required` check and no prior reset of the class, so stale marks persist). -/
def vfLoop (elems : List Elem) (idxs : List Nat) (valid : Bool) : List Elem × Bool :=
  match idxs with
  | [] => (elems, valid)
  | i :: rest =>
    match elems[i]? with
    | none => vfLoop elems rest valid
    | some e =>
      if e.value == "" then
        vfLoop (elems.set i { e with invalid := true }) rest false
      else
        vfLoop elems rest valid

/-- The regForm `validateForm` (add_student.js lines 138-158).  On success it
appends the `finish` class to the step-indicator entry of the current tab
(`className += " finish"`, unguarded in the source: an out-of-range
`currentTab`, which would throw in JavaScript, is modelled as a no-op, and
the theorems only use in-range indices). -/
def validateForm (elems : List Elem) (steps : List (List String)) (currentTab : Int) :
    (List Elem × List (List String)) × Bool :=
  match vfLoop elems
      (if 0 ≤ currentTab then inputTabIdxs elems currentTab.toNat else []) true with
  | (es, true) => ((es, modifyIdxI steps currentTab (fun cls => cls ++ ["finish"])), true)
  | (es, false) => ((es, steps), false)

end RegForm

example :
    (RegForm.validateForm
      [⟨"input", "text", "nick", "", false, false, false, 0⟩] [["step"]] 0).2 = false := by
  decide

example :
    (RegForm.validateForm
      [⟨"input", "text", "fname", "Alice", false, true, true, 0⟩] [["step"]] 0) =
      (([⟨"input", "text", "fname", "Alice", false, true, true, 0⟩],
        [["step", "finish"]]), true) := by decide

/-- The mutable page state of one wizard instantiation: the module-level
`currentTab`, the `display` style of each `.tab` panel (`true` = visible),
the form controls, the class tokens of each `.step` indicator entry, the
visibility of `#prevBtn`, the label of `#nextBtn`, whether the enclosing
form has been submitted, and the trace of arguments of the `showTab` calls
made so far (used to state which calls display a step). -/
structure WState where
  currentTab : Int
  tabVisible : List Bool
  elems : List Elem
  steps : List (List String)
  prevVisible : Bool
  nextLabel : String
  submitted : Bool
  displayed : List Int
deriving DecidableEq, Repr

namespace AddStudent

/-- `fixStepIndicator` of add_student.js (lines 89-95): removes the first
` active` occurrence from every `.step` entry's class string and appends
` active` to the entry at `n` (guarded by `if (steps[n])`). -/
def fixStepIndicator (steps : List (List String)) (n : Int) : List (List String) :=
  modifyIdxI (steps.map fun cls => cls.erase "active") n (fun cls => cls ++ ["active"])

/-- `showTab` of add_student.js (lines 8-26): returns early when there are no
tabs; otherwise hides every tab, shows tab `n`, hides `#prevBtn` exactly when
`n == 0`, labels `#nextBtn` `Submit` exactly on the last tab, and updates the
step indicator.  The call is recorded in `displayed` in either case. -/
def showTab (s : WState) (n : Int) : WState :=
  if s.tabVisible.length == 0 then { s with displayed := s.displayed ++ [n] }
  else
    { s with
      displayed := s.displayed ++ [n]
      tabVisible := setIdxI (s.tabVisible.map fun _ => false) n true
      prevVisible := !(n == 0)
      nextLabel := if n == (s.tabVisible.length : Int) - 1 then "Submit" else "Next"
      steps := fixStepIndicator s.steps n }

/-- The unconditional tail of `nextPrev` (add_student.js lines 33-47): hide
the current tab (guarded access), add `n` to `currentTab`, submit and return
`false` when the end is passed, otherwise display the new current tab. -/
def nextPrevMove (s : WState) (n : Int) : WState × Option Bool :=
  if (s.tabVisible.length : Int) ≤ s.currentTab + n then
    ({ s with
        tabVisible := setIdxI s.tabVisible s.currentTab false
        currentTab := s.currentTab + n
        submitted := true }, some false)
  else
    (showTab
      { s with
          tabVisible := setIdxI s.tabVisible s.currentTab false
          currentTab := s.currentTab + n }
      (s.currentTab + n), none)

/-- `nextPrev` of add_student.js (lines 28-48).  Moving forward (`n == 1`)
first runs `validateForm`; on failure it returns `false` with only the
validation's own side effects applied.  The return value `none` models the
implicit `undefined` return. -/
def nextPrev (s : WState) (n : Int) : WState × Option Bool :=
  if n == 1 then
    match validateForm s.tabVisible.length s.elems s.currentTab with
    | (es, true) => nextPrevMove { s with elems := es } n
    | (es, false) => ({ s with elems := es }, some false)
  else nextPrevMove s n

end AddStudent

namespace FlagStudent

/-- `fixStepIndicator` of flag_student.js (lines 168-174):
`classList.remove('active')` on every entry, then `classList.add('active')`
on the entry at `n` (guarded by `if (steps[n])`). -/
def fixStepIndicator (steps : List (List String)) (n : Int) : List (List String) :=
  modifyIdxI (steps.map (clRemove "active")) n (clAdd "active")

/-- `showTab` of flag_student.js (lines 97-115); identical to the
add_student variant except for its `fixStepIndicator`. -/
def showTab (s : WState) (n : Int) : WState :=
  if s.tabVisible.length == 0 then { s with displayed := s.displayed ++ [n] }
  else
    { s with
      displayed := s.displayed ++ [n]
      tabVisible := setIdxI (s.tabVisible.map fun _ => false) n true
      prevVisible := !(n == 0)
      nextLabel := if n == (s.tabVisible.length : Int) - 1 then "Submit" else "Next"
      steps := fixStepIndicator s.steps n }

/-- The unconditional tail of `nextPrev` (flag_student.js lines 122-136). -/
def nextPrevMove (s : WState) (n : Int) : WState × Option Bool :=
  if (s.tabVisible.length : Int) ≤ s.currentTab + n then
    ({ s with
        tabVisible := setIdxI s.tabVisible s.currentTab false
        currentTab := s.currentTab + n
        submitted := true }, some false)
  else
    (showTab
      { s with
          tabVisible := setIdxI s.tabVisible s.currentTab false
          currentTab := s.currentTab + n }
      (s.currentTab + n), none)

/-- `nextPrev` of flag_student.js (lines 117-137); forward moves are gated by
this file's `validateForm`, which also updates the step indicator's
`finish` marks. -/
def nextPrev (s : WState) (n : Int) : WState × Option Bool :=
  if n == 1 then
    match validateForm s.tabVisible.length s.elems s.steps s.currentTab with
    | ((es, st), true) => nextPrevMove { s with elems := es, steps := st } n
    | ((es, st), false) => ({ s with elems := es, steps := st }, some false)
  else nextPrevMove s n

end FlagStudent

namespace RegForm

/-- `fixStepIndicator` of the regForm variant (add_student.js lines 160-168):
the same class-string manipulation as the `AddStudent` variant, but with no
guard on `x[n]` (an out-of-range `n` would throw; modelled as a no-op). -/
def fixStepIndicator (steps : List (List String)) (n : Int) : List (List String) :=
  modifyIdxI (steps.map fun cls => cls.erase "active") n (fun cls => cls ++ ["active"])

/-- `showTab` of the regForm variant (add_student.js lines 100-117): shows
tab `n` (without hiding the others — the previous tab is hidden by
`nextPrev`), updates the two buttons and the step indicator. -/
def showTab (s : WState) (n : Int) : WState :=
  { s with
    displayed := s.displayed ++ [n]
    tabVisible := setIdxI s.tabVisible n true
    prevVisible := !(n == 0)
    nextLabel := if n == (s.tabVisible.length : Int) - 1 then "Submit" else "Next"
    steps := fixStepIndicator s.steps n }

/-- The unconditional tail of the regForm `nextPrev` (add_student.js lines
124-135). -/
def nextPrevMove (s : WState) (n : Int) : WState × Option Bool :=
  if (s.tabVisible.length : Int) ≤ s.currentTab + n then
    ({ s with
        tabVisible := setIdxI s.tabVisible s.currentTab false
        currentTab := s.currentTab + n
        submitted := true }, some false)
  else
    (showTab
      { s with
          tabVisible := setIdxI s.tabVisible s.currentTab false
          currentTab := s.currentTab + n }
      (s.currentTab + n), none)

/-- The regForm `nextPrev` (add_student.js lines 119-136). -/
def nextPrev (s : WState) (n : Int) : WState × Option Bool :=
  if n == 1 then
    match validateForm s.elems s.steps s.currentTab with
    | ((es, st), true) => nextPrevMove { s with elems := es, steps := st } n
    | ((es, st), false) => ({ s with elems := es, steps := st }, some false)
  else nextPrevMove s n

end RegForm

/-- The wizard states of the add_student (DOMContentLoaded) wizard that are
reachable through the user-invocable operations: the initial
`showTab(currentTab)` with `currentTab = 0` run on page load, a click on
`#nextBtn` (`nextPrev(1)`), and a click on `#prevBtn` (`nextPrev(-1)`) —
only possible while `#prevBtn` is displayed — each while the form has not
yet been submitted. -/
inductive Reach : WState → Prop where
  | init (vis0 : List Bool) (elems : List Elem) (steps : List (List String))
      (pv : Bool) (nl : String) (hv : 1 ≤ vis0.length) :
      Reach (AddStudent.showTab ⟨0, vis0, elems, steps, pv, nl, false, []⟩ 0)
  | fwd {s : WState} : Reach s → s.submitted = false →
      Reach (AddStudent.nextPrev s 1).1
  | bwd {s : WState} : Reach s → s.submitted = false → s.prevVisible = true →
      Reach (AddStudent.nextPrev s (-1)).1

/-- One `option` element of a subject dropdown: its `value` and whether it is
currently disabled (subject_validation.js). -/
structure SubjectOpt where
  value : String
  disabled : Bool
deriving DecidableEq, Repr

/-- One subject `select` element: its current `value` (`""` when nothing is
selected) and its options. -/
structure SelectEl where
  value : String
  options : List SubjectOpt
deriving DecidableEq, Repr

/-- Lines 30-36 of subject_validation.js: the set of non-empty values
currently selected across the dropdowns (a missing dropdown — a `null`
`getElementById` result — contributes nothing).  The JavaScript `Set` is
modelled as a list whose membership is what matters. -/
def selectedSubjects (selects : List (Option SelectEl)) : List String :=
  selects.filterMap fun s? =>
    match s? with
    | some sel => if sel.value != "" then some sel.value else none
    | none => none

/-- Lines 39-56 of subject_validation.js, the per-dropdown inner loop:
enable the empty option and the dropdown's own current selection, disable
any other option whose value is selected in some dropdown of the group. -/
def updateOptionsOf (selected : List String) (sel : SelectEl) : SelectEl :=
  { sel with
    options := sel.options.map fun o =>
      if o.value == "" || o.value == sel.value then { o with disabled := false }
      else if selected.contains o.value then { o with disabled := true }
      else { o with disabled := false } }

/-- `updateSubjectOptions` of subject_validation.js (lines 28-57). -/
def updateSubjectOptions (selects : List (Option SelectEl)) : List (Option SelectEl) :=
  selects.map fun s? => s?.map (updateOptionsOf (selectedSubjects selects))

example :
    updateSubjectOptions
      [some ⟨"maths", [⟨"", false⟩, ⟨"maths", true⟩, ⟨"bio", false⟩]⟩,
       some ⟨"bio", [⟨"", false⟩, ⟨"maths", false⟩, ⟨"bio", false⟩]⟩, none] =
      [some ⟨"maths", [⟨"", false⟩, ⟨"maths", false⟩, ⟨"bio", true⟩]⟩,
       some ⟨"bio", [⟨"", false⟩, ⟨"maths", true⟩, ⟨"bio", false⟩]⟩, none] := by decide

/-- A calendar date as date_validation.js reads it through the `Date`
accessors `getFullYear`/`getMonth`/`getDate`. -/
structure SDate where
  year : Int
  month : Int
  day : Int
deriving DecidableEq, Repr

/-- Lines 18-24 of date_validation.js: age in whole years at `today` of a
person born on `dob`. -/
def computeAge (today dob : SDate) : Int :=
  if today.month - dob.month < 0 ∨
      (today.month - dob.month = 0 ∧ today.day < dob.day) then
    today.year - dob.year - 1
  else today.year - dob.year

/-- The `validAges` object literal of date_validation.js (lines 27-30) read
at key `yeargroup`: `validAges[yeargroup]` is `undefined` (here `none`) for
any key other than `12` and `13`. -/
def validAges (yeargroup : Int) : Option (Int × Int) :=
  if yeargroup = 12 then some (16, 17)
  else if yeargroup = 13 then some (17, 18)
  else none

/-- Outcome of `validateDateOfBirth`: either a normal return (with the flag
`cleared` recording whether `dobInput.value` was reset to `''`), or the
TypeError raised by reading `.min` of an `undefined` allowed range. -/
inductive DobResult where
  | ok (ret : Bool) (cleared : Bool)
  | fault
deriving DecidableEq, Repr

/-- `validateDateOfBirth` of date_validation.js (lines 8-41).  `dobInput` is
the parsed date of birth (or `none` when the `#dob` element is absent),
`yearChecked` the `parseInt` of the checked `yeargroup` radio's value (or
`none` when no radio is checked / none exists). -/
def validateDateOfBirth (dobInput : Option SDate) (yearChecked : Option Int)
    (today : SDate) : DobResult :=
  match dobInput, yearChecked with
  | none, _ => .ok true false
  | some _, none => .ok true false
  | some dob, some yeargroup =>
    match validAges yeargroup with
    | none => .fault
    | some (mn, mx) =>
      if computeAge today dob < mn ∨ mx < computeAge today dob then .ok false true
      else .ok true false

example :
    validateDateOfBirth (some ⟨2009, 5, 1⟩) (some 12) ⟨2026, 10, 12⟩ = .ok true false := by
  decide

example :
    validateDateOfBirth (some ⟨2011, 5, 1⟩) (some 12) ⟨2026, 10, 12⟩ = .ok false true := by
  decide

example :
    validateDateOfBirth (some ⟨2009, 5, 1⟩) (some 11) ⟨2026, 10, 12⟩ = .fault := by decide

/-! ### Helper lemmas on list updates -/

theorem set_getElem?_self {α : Type} (l : List α) (i : Nat) (a : α)
    (h : l[i]? = some a) : l.set i a = l := by
  apply List.ext_getElem?
  intro n
  rw [List.getElem?_set]
  split
  · next hin =>
    subst hin
    rw [if_pos (by rcases List.getElem?_eq_some_iff.mp h with ⟨hl, _⟩; exact hl), h]
  · rfl

theorem getElem?_modifyIdx {α : Type} (l : List α) (i : Nat) (f : α → α) (j : Nat) :
    (modifyIdx l i f)[j]? = if i = j then (l[j]?).map f else l[j]? := by
  cases h : l[i]? with
  | none =>
    simp only [modifyIdx, h]
    rcases eq_or_ne i j with rfl | hij
    · rw [if_pos rfl, h]; rfl
    · rw [if_neg hij]
  | some a =>
    simp only [modifyIdx, h]
    rcases eq_or_ne i j with rfl | hij
    · rw [if_pos rfl,
        List.getElem?_set_self (by rcases List.getElem?_eq_some_iff.mp h with ⟨hl, _⟩; exact hl),
        h]
      rfl
    · rw [if_neg hij, List.getElem?_set_ne hij]

theorem length_modifyIdx {α : Type} (l : List α) (i : Nat) (f : α → α) :
    (modifyIdx l i f).length = l.length := by
  unfold modifyIdx
  cases l[i]? <;> simp

theorem getElem?_modifyIdxI {α : Type} (l : List α) (i : Int) (f : α → α) (j : Nat) :
    (modifyIdxI l i f)[j]? = if i = (j : Int) then (l[j]?).map f else l[j]? := by
  unfold modifyIdxI
  split
  · next hi =>
    rw [getElem?_modifyIdx]
    congr 1
    simp only [eq_iff_iff]
    omega
  · next hi =>
    rw [if_neg (by omega)]

theorem length_modifyIdxI {α : Type} (l : List α) (i : Int) (f : α → α) :
    (modifyIdxI l i f).length = l.length := by
  unfold modifyIdxI
  split <;> simp [length_modifyIdx]

theorem getElem?_setIdxI {α : Type} (l : List α) (i : Int) (a : α) (j : Nat) :
    (setIdxI l i a)[j]? = if i = (j : Int) then (l[j]?).map (fun _ => a) else l[j]? := by
  unfold setIdxI
  rw [getElem?_modifyIdxI]

theorem length_setIdxI {α : Type} (l : List α) (i : Int) (a : α) :
    (setIdxI l i a).length = l.length := by
  unfold setIdxI
  rw [length_modifyIdxI]

/-! ### The `invalid`-mark-insensitive part of an element -/

theorem Elem.core_inj {e f : Elem} (h : e.core = f.core) :
    e.tag = f.tag ∧ e.type = f.type ∧ e.name = f.name ∧ e.value = f.value ∧
    e.checked = f.checked ∧ e.required = f.required ∧ e.tab = f.tab := by
  cases e; cases f
  simpa [Elem.core, Elem.mk.injEq] using h

theorem coreMap_getElem? {elems elems0 : List Elem}
    (h : elems.map Elem.core = elems0.map Elem.core) (i : Nat) :
    (elems[i]?).map Elem.core = (elems0[i]?).map Elem.core := by
  rw [← List.getElem?_map, ← List.getElem?_map, h]

theorem coreMap_getElem?_none {elems elems0 : List Elem}
    (h : elems.map Elem.core = elems0.map Elem.core) {i : Nat}
    (hi : elems[i]? = none) : elems0[i]? = none := by
  have hc := coreMap_getElem? h i
  rw [hi] at hc
  cases h0 : elems0[i]? with
  | none => rfl
  | some e0 => rw [h0] at hc; simp at hc

theorem coreMap_getElem?_some {elems elems0 : List Elem}
    (h : elems.map Elem.core = elems0.map Elem.core) {i : Nat} {e : Elem}
    (hi : elems[i]? = some e) : ∃ e0, elems0[i]? = some e0 ∧ e0.core = e.core := by
  have hc := coreMap_getElem? h i
  rw [hi] at hc
  cases h0 : elems0[i]? with
  | none => rw [h0] at hc; simp at hc
  | some e0 =>
    rw [h0] at hc
    exact ⟨e0, rfl, by simpa using hc.symm⟩

theorem map_core_set {elems : List Elem} {i : Nat} {e : Elem}
    (h : elems[i]? = some e) (b : Bool) :
    (elems.set i { e with invalid := b }).map Elem.core = elems.map Elem.core := by
  rw [List.map_set]
  exact set_getElem?_self _ _ _ (by rw [List.getElem?_map, h]; rfl)

namespace AddStudent

theorem map_core_markGroup (elems : List Elem) (nm : String) :
    (markGroup elems nm).map Elem.core = elems.map Elem.core := by
  unfold markGroup
  rw [List.map_map]
  congr 1
  funext e
  simp only [Function.comp_apply]
  split <;> rfl

theorem anyChecked_map_core (elems : List Elem) (nm : String) :
    anyChecked (elems.map Elem.core) nm = anyChecked elems nm := by
  unfold anyChecked
  rw [List.any_map]
  congr 1

theorem anyChecked_congr {elems elems0 : List Elem}
    (h : elems.map Elem.core = elems0.map Elem.core) (nm : String) :
    anyChecked elems nm = anyChecked elems0 nm := by
  rw [← anyChecked_map_core elems, h, anyChecked_map_core]

/-- Whether element `f` fails the required-field check of `validateForm`:
`f` is required and is either a radio whose document-wide name group has no
checked member, or a non-radio with an empty or whitespace-only value.  This
only reads attribute fields, never `invalid` marks. -/
def failsCheck (elems : List Elem) (f : Elem) : Bool :=
  f.required &&
    (if f.type == "radio" then !anyChecked elems f.name
     else (f.value == "" || jsTrim f.value == ""))

/-- Whether the loop iteration of `vfLoop` for element index `i` leaves the
running `valid` flag untouched. -/
def checkPass (elems : List Elem) (i : Nat) : Bool :=
  match elems[i]? with
  | none => true
  | some f => !failsCheck elems f

theorem vfLoop_snd (elems0 : List Elem) (idxs : List Nat) :
    ∀ (elems : List Elem) (v : Bool),
      elems.map Elem.core = elems0.map Elem.core →
      (vfLoop elems idxs v).2 = (v && idxs.all (checkPass elems0)) := by
  induction idxs with
  | nil => intro elems v _; simp [vfLoop]
  | cons i rest ih =>
    intro elems v h
    cases hei : elems[i]? with
    | none =>
      have h0 : elems0[i]? = none := coreMap_getElem?_none h hei
      simp only [vfLoop, hei]
      rw [ih elems v h, List.all_cons]
      simp [checkPass, h0]
    | some e =>
      obtain ⟨e0, he0, hcore⟩ := coreMap_getElem?_some h hei
      obtain ⟨htag, htype, hname, hvalue, -, hrequired, -⟩ := Elem.core_inj hcore
      have hcp : checkPass elems0 i = !failsCheck elems0 e0 := by
        simp [checkPass, he0]
      simp only [vfLoop, hei]
      by_cases hr : e.required
      · by_cases ht : e.type == "radio"
        · by_cases ha : anyChecked (elems.set i { e with invalid := false }) e.name
          · rw [if_pos hr, if_pos ht, if_pos ha,
              ih _ v (by rw [map_core_set hei]; exact h), List.all_cons, hcp]
            have : failsCheck elems0 e0 = false := by
              rw [anyChecked_congr (map_core_set hei false) e.name,
                anyChecked_congr h e.name] at ha
              simp [failsCheck, htype, ht, hname, ha]
            rw [this]
            simp [Bool.and_assoc]
          · rw [if_pos hr, if_neg ha, if_pos ht,
              ih _ false (by rw [map_core_markGroup, map_core_set hei]; exact h),
              List.all_cons, hcp]
            have : failsCheck elems0 e0 = true := by
              rw [anyChecked_congr (map_core_set hei false) e.name,
                anyChecked_congr h e.name] at ha
              simp only [Bool.not_eq_true] at ha
              simp [failsCheck, htype, ht, hname, ha, hrequired, hr]
            rw [this]
            simp
        · by_cases hv : (e.value == "" || jsTrim e.value == "")
          · rw [if_pos hr, if_neg ht, if_pos hv,
              ih _ false (by rw [map_core_set hei]; exact h), List.all_cons, hcp]
            have : failsCheck elems0 e0 = true := by
              simp only [Bool.or_eq_true, beq_iff_eq] at hv
              simp [failsCheck, htype, ht, hvalue, hrequired, hr, hv]
            rw [this]
            simp
          · rw [if_pos hr, if_neg ht, if_neg hv,
              ih _ v (by rw [map_core_set hei]; exact h), List.all_cons, hcp]
            have : failsCheck elems0 e0 = false := by
              simp only [Bool.or_eq_true, beq_iff_eq, not_or] at hv
              simp [failsCheck, htype, ht, hvalue, hv.1, hv.2]
            rw [this]
            simp [Bool.and_assoc]
      · rw [if_neg hr, ih _ v (by rw [map_core_set hei]; exact h), List.all_cons, hcp]
        have : failsCheck elems0 e0 = false := by
          simp only [Bool.not_eq_true] at hr
          simp [failsCheck, hrequired, hr]
        rw [this]
        simp [Bool.and_assoc]

theorem getElem?_markGroup (elems : List Elem) (nm : String) (j : Nat) :
    (markGroup elems nm)[j]? =
      (elems[j]?).map fun f =>
        if f.tag == "input" && f.name == nm then { f with invalid := true } else f := by
  unfold markGroup
  rw [List.getElem?_map]

theorem ite_invalid (f : Elem) (c : Bool) :
    (if c = true then { f with invalid := true } else f) =
      { f with invalid := f.invalid || c } := by
  cases c <;> simp

/-- Whether the loop iteration of `vfLoop` for element index `i` writes the
`invalid` class onto the element at index `j`.  It is stated over the
initial element list, which is legitimate because the loop never changes an
attribute field. -/
def marksAt (elems : List Elem) (i j : Nat) : Bool :=
  match elems[i]?, elems[j]? with
  | some e, some f =>
    if e.required then
      if e.type == "radio" then
        !anyChecked elems e.name && (f.tag == "input" && f.name == e.name)
      else decide (i = j) && (e.value == "" || jsTrim e.value == "")
    else false
  | _, _ => false

/-- The `invalid` flag of the element at index `j` after `vfLoop` has
processed the indices `idxs`, starting from flag value `cur`: processing
index `j` itself first resets the flag (the `classList.remove`), and
processing any index may re-add it (`marksAt`). -/
def finalInv (elems : List Elem) (idxs : List Nat) (j : Nat) (cur : Bool) : Bool :=
  match idxs with
  | [] => cur
  | i :: rest =>
    finalInv elems rest j
      (if i = j then marksAt elems i j else (cur || marksAt elems i j))

theorem vfLoop_step (elems0 : List Elem) (elems : List Elem)
    (h : elems.map Elem.core = elems0.map Elem.core) (i : Nat) (ei : Elem)
    (hei : elems[i]? = some ei) (rest : List Nat) (v : Bool) :
    ∃ elems', vfLoop elems (i :: rest) v = vfLoop elems' rest (v && checkPass elems0 i) ∧
      elems'.map Elem.core = elems0.map Elem.core ∧
      ∀ (j : Nat) (e : Elem), elems[j]? = some e →
        elems'[j]? =
          some { e with invalid :=
            if i = j then marksAt elems0 i j else (e.invalid || marksAt elems0 i j) } := by
  obtain ⟨e0, he0, hcore⟩ := coreMap_getElem?_some h hei
  obtain ⟨htag, htype, hname, hvalue, -, hrequired, -⟩ := Elem.core_inj hcore
  have hcp : checkPass elems0 i = !failsCheck elems0 e0 := by simp [checkPass, he0]
  have hlen : i < elems.length := by
    rcases List.getElem?_eq_some_iff.mp hei with ⟨hl, -⟩; exact hl
  have hmarks : ∀ j f0, elems0[j]? = some f0 →
      marksAt elems0 i j =
        (if e0.required then
          if e0.type == "radio" then
            !anyChecked elems0 e0.name && (f0.tag == "input" && f0.name == e0.name)
          else decide (i = j) && (e0.value == "" || jsTrim e0.value == "")
        else false) := by
    intro j f0 hf0
    simp [marksAt, he0, hf0]
  by_cases hr : e0.required
  · by_cases ht : e0.type == "radio"
    · by_cases ha : anyChecked elems0 e0.name
      · refine ⟨elems.set i { ei with invalid := false }, ?_, (map_core_set hei false).trans h, ?_⟩
        · simp only [vfLoop, hei, if_pos (show ei.required = true by rw [← hrequired]; exact hr),
            if_pos (show (ei.type == "radio") = true by rw [show ei.type = e0.type from htype.symm]; exact ht),
            if_pos (show anyChecked (elems.set i { ei with invalid := false }) ei.name = true by
              rw [anyChecked_congr (map_core_set hei false), anyChecked_congr h,
                show ei.name = e0.name from hname.symm]
              exact ha)]
          congr 1
          rw [hcp]
          have : failsCheck elems0 e0 = false := by simp [failsCheck, ht, ha]
          rw [this]
          simp
        · intro j e hj
          obtain ⟨f0, hf0, -⟩ := coreMap_getElem?_some h hj
          have hm : marksAt elems0 i j = false := by rw [hmarks j f0 hf0]; simp [hr, ht, ha]
          rcases eq_or_ne i j with rfl | hij
          · have : e = ei := by rw [hj] at hei; injection hei
            subst this
            rw [List.getElem?_set_self hlen, if_pos rfl, hm]
          · rw [List.getElem?_set_ne hij, hj, if_neg hij, hm, Bool.or_false]
      · refine ⟨markGroup (elems.set i { ei with invalid := false }) ei.name, ?_, ?_, ?_⟩
        · simp only [vfLoop, hei, if_pos (show ei.required = true by rw [← hrequired]; exact hr),
            if_pos (show (ei.type == "radio") = true by rw [show ei.type = e0.type from htype.symm]; exact ht),
            if_neg (show ¬anyChecked (elems.set i { ei with invalid := false }) ei.name = true by
              rw [anyChecked_congr (map_core_set hei false), anyChecked_congr h,
                show ei.name = e0.name from hname.symm]
              exact ha)]
          congr 1
          rw [hcp]
          have : failsCheck elems0 e0 = true := by
            simp only [Bool.not_eq_true] at ha
            simp [failsCheck, ht, ha, hr]
          rw [this]
          simp
        · rw [map_core_markGroup, map_core_set hei]; exact h
        · intro j e hj
          obtain ⟨f0, hf0, hfcore⟩ := coreMap_getElem?_some h hj
          obtain ⟨hftag, -, hfname, -, -, -, -⟩ := Elem.core_inj hfcore
          have hm : marksAt elems0 i j =
              (f0.tag == "input" && f0.name == e0.name) := by
            rw [hmarks j f0 hf0]
            simp only [Bool.not_eq_true] at ha
            simp [hr, ht, ha]
          rw [getElem?_markGroup]
          rcases eq_or_ne i j with rfl | hij
          · have : e = ei := by rw [hj] at hei; injection hei
            subst this
            rw [List.getElem?_set_self hlen, if_pos rfl, hm]
            simp only [Option.map_some', ite_invalid]
            simp [Elem.mk.injEq, hftag, hfname, hname]
          · rw [List.getElem?_set_ne hij, hj, if_neg hij, hm]
            simp only [Option.map_some', ite_invalid]
            simp [Elem.mk.injEq, hftag, hfname, hname]
    · by_cases hval : (e0.value == "" || jsTrim e0.value == "")
      · refine ⟨elems.set i { ei with invalid := true }, ?_, (map_core_set hei true).trans h, ?_⟩
        · simp only [vfLoop, hei, if_pos (show ei.required = true by rw [← hrequired]; exact hr),
            if_neg (show ¬(ei.type == "radio") = true by rw [show ei.type = e0.type from htype.symm]; exact ht),
            if_pos (show (ei.value == "" || jsTrim ei.value == "") = true by
              rw [show ei.value = e0.value from hvalue.symm]; exact hval)]
          congr 1
          rw [hcp]
          have : failsCheck elems0 e0 = true := by simp [failsCheck, ht, hval, hr]
          rw [this]
          simp
        · intro j e hj
          obtain ⟨f0, hf0, -⟩ := coreMap_getElem?_some h hj
          have hm : marksAt elems0 i j = (decide (i = j) && true) := by
            rw [hmarks j f0 hf0]
            simp [hr, ht, hval]
          rcases eq_or_ne i j with rfl | hij
          · have : e = ei := by rw [hj] at hei; injection hei
            subst this
            rw [List.getElem?_set_self hlen, if_pos rfl, hm]
            simp
          · rw [List.getElem?_set_ne hij, hj, if_neg hij, hm]
            simp [hij]
      · refine ⟨elems.set i { ei with invalid := false }, ?_, (map_core_set hei false).trans h, ?_⟩
        · simp only [vfLoop, hei, if_pos (show ei.required = true by rw [← hrequired]; exact hr),
            if_neg (show ¬(ei.type == "radio") = true by rw [show ei.type = e0.type from htype.symm]; exact ht),
            if_neg (show ¬(ei.value == "" || jsTrim ei.value == "") = true by
              rw [show ei.value = e0.value from hvalue.symm]; exact hval)]
          congr 1
          rw [hcp]
          have : failsCheck elems0 e0 = false := by
            simp only [Bool.or_eq_true, not_or] at hval
            simp [failsCheck, ht, hval.1, hval.2]
          rw [this]
          simp
        · intro j e hj
          obtain ⟨f0, hf0, -⟩ := coreMap_getElem?_some h hj
          have hm : marksAt elems0 i j = false := by
            rw [hmarks j f0 hf0]
            simp only [Bool.or_eq_true, beq_iff_eq, not_or] at hval
            simp [hr, ht, hval.1, hval.2]
          rcases eq_or_ne i j with rfl | hij
          · have : e = ei := by rw [hj] at hei; injection hei
            subst this
            rw [List.getElem?_set_self hlen, if_pos rfl, hm]
          · rw [List.getElem?_set_ne hij, hj, if_neg hij, hm, Bool.or_false]
  · refine ⟨elems.set i { ei with invalid := false }, ?_, (map_core_set hei false).trans h, ?_⟩
    · simp only [vfLoop, hei,
        if_neg (show ¬ei.required = true by rw [← hrequired]; exact hr)]
      congr 1
      rw [hcp]
      have : failsCheck elems0 e0 = false := by
        simp only [Bool.not_eq_true] at hr
        simp [failsCheck, hr]
      rw [this]
      simp
    · intro j e hj
      obtain ⟨f0, hf0, -⟩ := coreMap_getElem?_some h hj
      have hm : marksAt elems0 i j = false := by rw [hmarks j f0 hf0]; simp [hr]
      rcases eq_or_ne i j with rfl | hij
      · have : e = ei := by rw [hj] at hei; injection hei
        subst this
        rw [List.getElem?_set_self hlen, if_pos rfl, hm]
      · rw [List.getElem?_set_ne hij, hj, if_neg hij, hm, Bool.or_false]

theorem vfLoop_getElem? (elems0 : List Elem) (idxs : List Nat) :
    ∀ (elems : List Elem) (v : Bool) (j : Nat) (e : Elem),
      elems.map Elem.core = elems0.map Elem.core →
      elems[j]? = some e →
      (vfLoop elems idxs v).1[j]? =
        some { e with invalid := finalInv elems0 idxs j e.invalid } := by
  induction idxs with
  | nil =>
    intro elems v j e _ hj
    simp [vfLoop, finalInv, hj]
  | cons i rest ih =>
    intro elems v j e h hj
    cases hei : elems[i]? with
    | none =>
      have hi0 : elems0[i]? = none := coreMap_getElem?_none h hei
      have hij : i ≠ j := by
        intro hh
        rw [hh, hj] at hei
        cases hei
      have hm : marksAt elems0 i j = false := by simp [marksAt, hi0]
      simp only [vfLoop, hei, finalInv, if_neg hij, hm, Bool.or_false]
      exact ih elems v j e h hj
    | some ei =>
      obtain ⟨elems', hstep, h', hentry⟩ := vfLoop_step elems0 elems h i ei hei rest v
      rw [hstep]
      have := ih elems' (v && checkPass elems0 i) j _ h' (hentry j e hj)
      rw [this]
      simp only [finalInv]

theorem mem_tabIdxs {elems : List Elem} {t : Nat} {i : Nat} :
    i ∈ tabIdxs elems t ↔ ∃ f, elems[i]? = some f ∧ f.tab = t := by
  unfold tabIdxs
  rw [List.mem_filter, List.mem_range]
  constructor
  · rintro ⟨hi, hcond⟩
    cases h : elems[i]? with
    | none => rw [h] at hcond; cases hcond
    | some f =>
      rw [h] at hcond
      exact ⟨f, rfl, by simpa using hcond⟩
  · rintro ⟨f, hf, ht⟩
    refine ⟨?_, ?_⟩
    · rcases List.getElem?_eq_some_iff.mp hf with ⟨hl, -⟩; exact hl
    · rw [hf]; simpa using ht

theorem validateForm_snd (tabCount : Nat) (elems : List Elem) (ct : Int)
    (h0 : 0 ≤ ct) (h1 : ct < (tabCount : Int)) :
    (validateForm tabCount elems ct).2 = (tabIdxs elems ct.toNat).all (checkPass elems) := by
  unfold validateForm
  rw [if_pos ⟨h0, h1⟩, vfLoop_snd elems _ elems true rfl, Bool.true_and]

theorem validateForm_false_iff (tabCount : Nat) (elems : List Elem) (ct : Int)
    (h0 : 0 ≤ ct) (h1 : ct < (tabCount : Int)) :
    (validateForm tabCount elems ct).2 = false ↔
      ∃ (j : Nat) (f : Elem), elems[j]? = some f ∧ f.tab = ct.toNat ∧
        failsCheck elems f = true := by
  rw [validateForm_snd _ _ _ h0 h1]
  constructor
  · intro hfalse
    have : ¬(tabIdxs elems ct.toNat).all (checkPass elems) = true := by
      rw [hfalse]; exact Bool.false_ne_true
    rw [List.all_eq_true] at this
    push_neg at this
    obtain ⟨i, hi, hcp⟩ := this
    obtain ⟨f, hf, htab⟩ := mem_tabIdxs.mp hi
    refine ⟨i, f, hf, htab, ?_⟩
    cases hfc : failsCheck elems f with
    | true => rfl
    | false => exact absurd (by simp [checkPass, hf, hfc]) hcp
  · rintro ⟨j, f, hf, htab, hfail⟩
    have hmem : j ∈ tabIdxs elems ct.toNat := mem_tabIdxs.mpr ⟨f, hf, htab⟩
    cases hall : (tabIdxs elems ct.toNat).all (checkPass elems) with
    | false => rfl
    | true =>
      have := List.all_eq_true.mp hall j hmem
      simp [checkPass, hf, hfail] at this

theorem validateForm_fst_getElem? (tabCount : Nat) (elems : List Elem) (ct : Int)
    (h0 : 0 ≤ ct) (h1 : ct < (tabCount : Int)) (j : Nat) (e : Elem)
    (hj : elems[j]? = some e) :
    (validateForm tabCount elems ct).1[j]? =
      some { e with invalid := finalInv elems (tabIdxs elems ct.toNat) j e.invalid } := by
  unfold validateForm
  rw [if_pos ⟨h0, h1⟩]
  exact vfLoop_getElem? elems _ elems true j e rfl hj

theorem marksAt_true_failsCheck {elems : List Elem} {i j : Nat}
    (h : marksAt elems i j = true) :
    ∃ ei, elems[i]? = some ei ∧ failsCheck elems ei = true := by
  cases hi : elems[i]? with
  | none => simp [marksAt, hi] at h
  | some ei =>
    cases hj : elems[j]? with
    | none => simp [marksAt, hi, hj] at h
    | some fj =>
      refine ⟨ei, rfl, ?_⟩
      simp only [marksAt, hi, hj] at h
      by_cases hr : ei.required
      · rw [if_pos hr] at h
        by_cases ht : ei.type == "radio"
        · rw [if_pos ht] at h
          simp only [Bool.and_eq_true] at h
          simp [failsCheck, ht, hr, h.1]
        · rw [if_neg ht] at h
          simp only [Bool.and_eq_true] at h
          simp [failsCheck, ht, hr, h.2]
      · rw [if_neg hr] at h
        cases h

theorem finalInv_false_of_all {elems : List Elem} {j : Nat} :
    ∀ idxs : List Nat, (∀ i ∈ idxs, marksAt elems i j = false) →
      finalInv elems idxs j false = false := by
  intro idxs
  induction idxs with
  | nil => intro _; rfl
  | cons i rest ih =>
    intro hmk
    unfold finalInv
    rw [hmk i (List.mem_cons_self i rest), Bool.or_false, ite_self]
    exact ih fun i' hi' => hmk i' (List.mem_cons_of_mem _ hi')

theorem finalInv_false_of_mem {elems : List Elem} {j : Nat} :
    ∀ idxs : List Nat, (∀ i ∈ idxs, marksAt elems i j = false) → j ∈ idxs →
      ∀ cur, finalInv elems idxs j cur = false := by
  intro idxs
  induction idxs with
  | nil => intro _ hj; cases hj
  | cons i rest ih =>
    intro hmk hj cur
    unfold finalInv
    rcases eq_or_ne i j with rfl | hij
    · rw [if_pos rfl, hmk i (List.mem_cons_self i rest)]
      exact finalInv_false_of_all rest fun i' hi' => hmk i' (List.mem_cons_of_mem _ hi')
    · rw [if_neg hij, hmk i (List.mem_cons_self i rest), Bool.or_false]
      refine ih (fun i' hi' => hmk i' (List.mem_cons_of_mem _ hi')) ?_ cur
      rcases List.mem_cons.mp hj with h | h
      · exact absurd h.symm hij
      · exact h

theorem validateForm_true_clears (tabCount : Nat) (elems : List Elem) (ct : Int)
    (h0 : 0 ≤ ct) (h1 : ct < (tabCount : Int))
    (hsucc : (validateForm tabCount elems ct).2 = true)
    (j : Nat) (e : Elem) (hj : elems[j]? = some e) (htab : e.tab = ct.toNat) :
    (validateForm tabCount elems ct).1[j]? = some { e with invalid := false } := by
  rw [validateForm_fst_getElem? _ _ _ h0 h1 j e hj]
  have hall : (tabIdxs elems ct.toNat).all (checkPass elems) = true := by
    rw [validateForm_snd _ _ _ h0 h1] at hsucc; exact hsucc
  have hmk : ∀ i ∈ tabIdxs elems ct.toNat, marksAt elems i j = false := by
    intro i hi
    cases hmm : marksAt elems i j with
    | false => rfl
    | true =>
      obtain ⟨ei, hei, hfail⟩ := marksAt_true_failsCheck hmm
      have hmem := List.all_eq_true.mp hall i hi
      simp [checkPass, hei, hfail] at hmem
  have hjmem : j ∈ tabIdxs elems ct.toNat := mem_tabIdxs.mpr ⟨e, hj, htab⟩
  rw [finalInv_false_of_mem _ hmk hjmem]

/-- Well-formedness of the document's radio groups: every radio is an
`input` element, every `input` sharing a name with a radio is itself a
radio, and the radios of one name group agree on `required` — the standard
HTML structure of a radio group. -/
def RadioGroupsWF (elems : List Elem) : Prop :=
  (∀ e ∈ elems, e.type = "radio" → e.tag = "input") ∧
  (∀ e ∈ elems, ∀ f ∈ elems, e.type = "radio" → f.tag = "input" → f.name = e.name →
    f.type = "radio") ∧
  (∀ e ∈ elems, ∀ f ∈ elems, e.type = "radio" → f.type = "radio" → f.name = e.name →
    f.required = e.required)

theorem marksAt_self_eq {elems : List Elem} (hwf : RadioGroupsWF elems) {j : Nat}
    {f : Elem} (hj : elems[j]? = some f) :
    marksAt elems j j = failsCheck elems f := by
  have hmem : f ∈ elems := List.getElem?_mem hj
  simp only [marksAt, hj]
  by_cases hr : f.required
  · by_cases ht : f.type == "radio"
    · have htag : f.tag = "input" := hwf.1 f hmem (by simpa using ht)
      rw [if_pos hr, if_pos ht]
      simp [failsCheck, ht, hr, htag]
    · rw [if_pos hr, if_neg ht]
      simp [failsCheck, ht, hr]
  · rw [if_neg hr]
    have hr' : f.required = false := by revert hr; cases f.required <;> simp
    simp [failsCheck, hr']

theorem marksAt_imp_failsCheck {elems : List Elem} (hwf : RadioGroupsWF elems)
    {i j : Nat} {f : Elem} (hj : elems[j]? = some f)
    (hm : marksAt elems i j = true) : failsCheck elems f = true := by
  obtain ⟨ei, hei, -⟩ := marksAt_true_failsCheck hm
  simp only [marksAt, hei, hj] at hm
  by_cases hr : ei.required
  · rw [if_pos hr] at hm
    by_cases ht : ei.type == "radio"
    · rw [if_pos ht] at hm
      simp only [Bool.and_eq_true, Bool.not_eq_true', beq_iff_eq] at hm
      have hfradio : f.type = "radio" :=
        hwf.2.1 ei (List.getElem?_mem hei) f (List.getElem?_mem hj)
          (by simpa using ht) hm.2.1 hm.2.2
      have hfreq : f.required = ei.required :=
        hwf.2.2 ei (List.getElem?_mem hei) f (List.getElem?_mem hj)
          (by simpa using ht) hfradio hm.2.2
      simp [failsCheck, hfradio, hfreq, hr, hm.2.2, hm.1]
    · rw [if_neg ht] at hm
      simp only [Bool.and_eq_true, decide_eq_true_eq] at hm
      have hef : ei = f := by
        rw [hm.1, hj] at hei
        injection hei with hh
        exact hh.symm
      subst hef
      simp [failsCheck, ht, hr, hm.2]
  · rw [if_neg hr] at hm
    cases hm

theorem finalInv_const {elems : List Elem} {j : Nat} (c : Bool)
    (hjj : marksAt elems j j = c)
    (himp : ∀ i, marksAt elems i j = true → c = true) :
    ∀ idxs : List Nat, finalInv elems idxs j c = c := by
  intro idxs
  induction idxs with
  | nil => rfl
  | cons i rest ih =>
    unfold finalInv
    have harg : (if i = j then marksAt elems i j else (c || marksAt elems i j)) = c := by
      rcases eq_or_ne i j with rfl | hij
      · rw [if_pos rfl, hjj]
      · rw [if_neg hij]
        cases hmm : marksAt elems i j
        · rw [Bool.or_false]
        · rw [himp i hmm, Bool.true_or]
    rw [harg]
    exact ih

theorem finalInv_eq_of_mem {elems : List Elem} {j : Nat} (c : Bool)
    (hjj : marksAt elems j j = c)
    (himp : ∀ i, marksAt elems i j = true → c = true) :
    ∀ idxs : List Nat, j ∈ idxs → ∀ cur, finalInv elems idxs j cur = c := by
  intro idxs
  induction idxs with
  | nil => intro hj; cases hj
  | cons i rest ih =>
    intro hj cur
    unfold finalInv
    rcases eq_or_ne i j with rfl | hij
    · rw [if_pos rfl, hjj]
      exact finalInv_const c hjj himp rest
    · rw [if_neg hij]
      refine ih ?_ _
      rcases List.mem_cons.mp hj with h | h
      · exact absurd h.symm hij
      · exact h

theorem validateForm_invalid_eq (tabCount : Nat) (elems : List Elem) (ct : Int)
    (hwf : RadioGroupsWF elems) (h0 : 0 ≤ ct) (h1 : ct < (tabCount : Int))
    (j : Nat) (e : Elem) (hj : elems[j]? = some e) (htab : e.tab = ct.toNat) :
    (validateForm tabCount elems ct).1[j]? =
      some { e with invalid := failsCheck elems e } := by
  rw [validateForm_fst_getElem? _ _ _ h0 h1 j e hj]
  have hjj := marksAt_self_eq hwf hj
  have himp : ∀ i, marksAt elems i j = true → failsCheck elems e = true :=
    fun i hm => marksAt_imp_failsCheck hwf hj hm
  have hjmem : j ∈ tabIdxs elems ct.toNat := mem_tabIdxs.mpr ⟨e, hj, htab⟩
  rw [finalInv_eq_of_mem _ hjj himp _ hjmem]

end AddStudent

namespace FlagStudent

/-- Whether element `f` fails the flag_student required check:
`input.hasAttribute('required') && !input.value` — the value string alone is
tested, also for radios (no group logic, no trimming). -/
def failsCheck (f : Elem) : Bool := f.required && f.value == ""

/-- Whether the loop iteration of the flag_student `vfLoop` for element
index `i` leaves the running `valid` flag untouched. -/
def checkPass (elems : List Elem) (i : Nat) : Bool :=
  match elems[i]? with
  | none => true
  | some f => !failsCheck f

theorem vfLoopF_snd (elems0 : List Elem) (idxs : List Nat) :
    ∀ (elems : List Elem) (v : Bool),
      elems.map Elem.core = elems0.map Elem.core →
      (vfLoop elems idxs v).2 = (v && idxs.all (checkPass elems0)) := by
  induction idxs with
  | nil => intro elems v _; simp [vfLoop]
  | cons i rest ih =>
    intro elems v h
    cases hei : elems[i]? with
    | none =>
      have h0 : elems0[i]? = none := coreMap_getElem?_none h hei
      simp only [vfLoop, hei]
      rw [ih elems v h, List.all_cons]
      simp [checkPass, h0]
    | some e =>
      obtain ⟨e0, he0, hcore⟩ := coreMap_getElem?_some h hei
      obtain ⟨-, -, -, hvalue, -, hrequired, -⟩ := Elem.core_inj hcore
      have hfc : failsCheck e0 = failsCheck e := by
        unfold failsCheck
        rw [hvalue, hrequired]
      have hcp : checkPass elems0 i = !failsCheck e := by
        simp [checkPass, he0, hfc]
      simp only [vfLoop, hei]
      by_cases hf : (e.required && e.value == "")
      · rw [if_pos hf, ih _ false ((map_core_set hei true).trans h), List.all_cons, hcp]
        have : failsCheck e = true := hf
        rw [this]
        simp
      · rw [if_neg hf, ih _ v ((map_core_set hei false).trans h), List.all_cons, hcp]
        have : failsCheck e = false := by
          cases hfc2 : failsCheck e with
          | false => rfl
          | true => exact absurd hfc2 hf
        rw [this]
        simp [Bool.and_assoc]

theorem vfLoopF_getElem? (idxs : List Nat) :
    ∀ (elems : List Elem) (v : Bool) (j : Nat) (e : Elem),
      elems[j]? = some e →
      (vfLoop elems idxs v).1[j]? =
        some { e with invalid := if j ∈ idxs then failsCheck e else e.invalid } := by
  induction idxs with
  | nil =>
    intro elems v j e hj
    simp [vfLoop, hj]
  | cons i rest ih =>
    intro elems v j e hj
    cases hei : elems[i]? with
    | none =>
      have hij : i ≠ j := by
        intro hh
        rw [hh, hj] at hei
        cases hei
      have hiff : (j ∈ i :: rest) ↔ (j ∈ rest) := by
        rw [List.mem_cons]
        exact or_iff_right fun hh => hij hh.symm
      simp only [vfLoop, hei, hiff]
      exact ih elems v j e hj
    | some ei =>
      have hlen : i < elems.length := by
        rcases List.getElem?_eq_some_iff.mp hei with ⟨hl, -⟩; exact hl
      rcases eq_or_ne i j with rfl | hij
      · have hee : e = ei := by rw [hj] at hei; injection hei
        subst hee
        by_cases hf : (e.required && e.value == "")
        · simp only [vfLoop, hei, if_pos hf]
          rw [ih _ false i _ (List.getElem?_set_self hlen)]
          have hfc : failsCheck ({ e with invalid := true } : Elem) = failsCheck e := rfl
          rw [if_pos (List.mem_cons_self i rest), show failsCheck e = true from hf]
          simp only [hfc, show failsCheck e = true from hf, ite_self]
        · simp only [vfLoop, hei, if_neg hf]
          rw [ih _ v i _ (List.getElem?_set_self hlen)]
          have hfc : failsCheck ({ e with invalid := false } : Elem) = failsCheck e := rfl
          have hfc0 : failsCheck e = false := by
            cases hfc2 : failsCheck e with
            | false => rfl
            | true => exact absurd hfc2 hf
          rw [if_pos (List.mem_cons_self i rest), hfc0]
          simp [hfc, hfc0]
      · have hiff : (j ∈ i :: rest) ↔ (j ∈ rest) := by
          rw [List.mem_cons]
          exact or_iff_right fun hh => hij hh.symm
        by_cases hf : (ei.required && ei.value == "")
        · simp only [vfLoop, hei, if_pos hf, hiff]
          exact ih _ false j e (by rw [List.getElem?_set_ne hij, hj])
        · simp only [vfLoop, hei, if_neg hf, hiff]
          exact ih _ v j e (by rw [List.getElem?_set_ne hij, hj])

theorem validateFormF_expand (tabCount : Nat) (elems : List Elem)
    (steps : List (List String)) (ct : Int) (h0 : 0 ≤ ct) (h1 : ct < (tabCount : Int)) :
    validateForm tabCount elems steps ct =
      if (vfLoop elems (tabIdxs elems ct.toNat) true).2 then
        (((vfLoop elems (tabIdxs elems ct.toNat) true).1,
          modifyIdxI steps ct (clAdd "finish")), true)
      else (((vfLoop elems (tabIdxs elems ct.toNat) true).1, steps), false) := by
  unfold validateForm
  rw [if_pos ⟨h0, h1⟩]
  rcases hv : vfLoop elems (tabIdxs elems ct.toNat) true with ⟨es, b⟩
  cases b <;> simp

theorem validateFormF_snd (tabCount : Nat) (elems : List Elem)
    (steps : List (List String)) (ct : Int) (h0 : 0 ≤ ct) (h1 : ct < (tabCount : Int)) :
    (validateForm tabCount elems steps ct).2 =
      (tabIdxs elems ct.toNat).all (checkPass elems) := by
  rw [validateFormF_expand _ _ _ _ h0 h1]
  have hs := vfLoopF_snd elems (tabIdxs elems ct.toNat) elems true rfl
  rw [Bool.true_and] at hs
  split
  · next hv =>
    show true = (tabIdxs elems ct.toNat).all (checkPass elems)
    rw [hs] at hv
    exact hv.symm
  · next hv =>
    show false = (tabIdxs elems ct.toNat).all (checkPass elems)
    have hvv : (vfLoop elems (tabIdxs elems ct.toNat) true).2 = false := by
      cases h2 : (vfLoop elems (tabIdxs elems ct.toNat) true).2 with
      | false => rfl
      | true => exact absurd h2 hv
    rw [hs] at hvv
    exact hvv.symm

end FlagStudent

namespace RegForm

/-- Whether element `f` fails the regForm check: its value string is empty
(the `required` attribute is never consulted). -/
def failsCheck (f : Elem) : Bool := f.value == ""

/-- Whether the loop iteration of the regForm `vfLoop` for element index `i`
leaves the running `valid` flag untouched. -/
def checkPass (elems : List Elem) (i : Nat) : Bool :=
  match elems[i]? with
  | none => true
  | some f => !failsCheck f

theorem vfLoopR_snd (elems0 : List Elem) (idxs : List Nat) :
    ∀ (elems : List Elem) (v : Bool),
      elems.map Elem.core = elems0.map Elem.core →
      (vfLoop elems idxs v).2 = (v && idxs.all (checkPass elems0)) := by
  induction idxs with
  | nil => intro elems v _; simp [vfLoop]
  | cons i rest ih =>
    intro elems v h
    cases hei : elems[i]? with
    | none =>
      have h0 : elems0[i]? = none := coreMap_getElem?_none h hei
      simp only [vfLoop, hei]
      rw [ih elems v h, List.all_cons]
      simp [checkPass, h0]
    | some e =>
      obtain ⟨e0, he0, hcore⟩ := coreMap_getElem?_some h hei
      obtain ⟨-, -, -, hvalue, -, -, -⟩ := Elem.core_inj hcore
      have hfc : failsCheck e0 = failsCheck e := by
        unfold failsCheck
        rw [hvalue]
      have hcp : checkPass elems0 i = !failsCheck e := by
        simp [checkPass, he0, hfc]
      simp only [vfLoop, hei]
      by_cases hf : (e.value == "")
      · rw [if_pos hf, ih _ false ((map_core_set hei true).trans h), List.all_cons, hcp]
        have : failsCheck e = true := hf
        rw [this]
        simp
      · rw [if_neg hf, ih _ v h, List.all_cons, hcp]
        have : failsCheck e = false := by
          cases hfc2 : failsCheck e with
          | false => rfl
          | true => exact absurd hfc2 hf
        rw [this]
        simp [Bool.and_assoc]

theorem vfLoopR_getElem? (idxs : List Nat) :
    ∀ (elems : List Elem) (v : Bool) (j : Nat) (e : Elem),
      elems[j]? = some e →
      (vfLoop elems idxs v).1[j]? =
        some { e with invalid :=
          (e.invalid || (decide (j ∈ idxs) && failsCheck e)) } := by
  induction idxs with
  | nil =>
    intro elems v j e hj
    simp [vfLoop, hj]
  | cons i rest ih =>
    intro elems v j e hj
    cases hei : elems[i]? with
    | none =>
      have hij : i ≠ j := by
        intro hh
        rw [hh, hj] at hei
        cases hei
      have hiff : (j ∈ i :: rest) ↔ (j ∈ rest) := by
        rw [List.mem_cons]
        exact or_iff_right fun hh => hij hh.symm
      simp only [vfLoop, hei, hiff]
      exact ih elems v j e hj
    | some ei =>
      have hlen : i < elems.length := by
        rcases List.getElem?_eq_some_iff.mp hei with ⟨hl, -⟩; exact hl
      rcases eq_or_ne i j with rfl | hij
      · have hee : e = ei := by rw [hj] at hei; injection hei
        subst hee
        by_cases hf : (e.value == "")
        · simp only [vfLoop, hei, if_pos hf]
          rw [ih _ false i _ (List.getElem?_set_self hlen)]
          have : failsCheck ({ e with invalid := true } : Elem) = failsCheck e := rfl
          simp [this, show failsCheck e = true from hf,
            List.mem_cons_self i rest]
        · simp only [vfLoop, hei, if_neg hf]
          rw [ih _ v i e hj]
          have hfc0 : failsCheck e = false := by
            cases hfc2 : failsCheck e with
            | false => rfl
            | true => exact absurd hfc2 hf
          simp [hfc0]
      · have hiff : (j ∈ i :: rest) ↔ (j ∈ rest) := by
          rw [List.mem_cons]
          exact or_iff_right fun hh => hij hh.symm
        by_cases hf : (ei.value == "")
        · simp only [vfLoop, hei, if_pos hf, hiff]
          exact ih _ false j e (by rw [List.getElem?_set_ne hij, hj])
        · simp only [vfLoop, hei, if_neg hf, hiff]
          exact ih _ v j e hj

theorem validateFormR_expand (elems : List Elem) (steps : List (List String))
    (ct : Int) (h0 : 0 ≤ ct) :
    validateForm elems steps ct =
      if (vfLoop elems (inputTabIdxs elems ct.toNat) true).2 then
        (((vfLoop elems (inputTabIdxs elems ct.toNat) true).1,
          modifyIdxI steps ct (fun cls => cls ++ ["finish"])), true)
      else (((vfLoop elems (inputTabIdxs elems ct.toNat) true).1, steps), false) := by
  unfold validateForm
  rw [if_pos h0]
  rcases hv : vfLoop elems (inputTabIdxs elems ct.toNat) true with ⟨es, b⟩
  cases b <;> simp

theorem validateFormR_snd (elems : List Elem) (steps : List (List String))
    (ct : Int) (h0 : 0 ≤ ct) :
    (validateForm elems steps ct).2 =
      (inputTabIdxs elems ct.toNat).all (checkPass elems) := by
  rw [validateFormR_expand _ _ _ h0]
  have hs := vfLoopR_snd elems (inputTabIdxs elems ct.toNat) elems true rfl
  rw [Bool.true_and] at hs
  split
  · next hv =>
    show true = (inputTabIdxs elems ct.toNat).all (checkPass elems)
    rw [hs] at hv
    exact hv.symm
  · next hv =>
    show false = (inputTabIdxs elems ct.toNat).all (checkPass elems)
    have hvv : (vfLoop elems (inputTabIdxs elems ct.toNat) true).2 = false := by
      cases h2 : (vfLoop elems (inputTabIdxs elems ct.toNat) true).2 with
      | false => rfl
      | true => exact absurd h2 hv
    rw [hs] at hvv
    exact hvv.symm

end RegForm

namespace AddStudent

theorem showTab_currentTab (s : WState) (n : Int) :
    (showTab s n).currentTab = s.currentTab := by
  unfold showTab; split <;> rfl

theorem showTab_elems (s : WState) (n : Int) : (showTab s n).elems = s.elems := by
  unfold showTab; split <;> rfl

theorem showTab_submitted (s : WState) (n : Int) :
    (showTab s n).submitted = s.submitted := by
  unfold showTab; split <;> rfl

theorem showTab_displayed (s : WState) (n : Int) :
    (showTab s n).displayed = s.displayed ++ [n] := by
  unfold showTab; split <;> rfl

theorem showTab_length (s : WState) (n : Int) :
    (showTab s n).tabVisible.length = s.tabVisible.length := by
  unfold showTab
  split
  · rfl
  · show (setIdxI (s.tabVisible.map fun _ => false) n true).length = _
    rw [length_setIdxI, List.length_map]

theorem showTab_prevVisible (s : WState) (n : Int) (h : s.tabVisible.length ≠ 0) :
    (showTab s n).prevVisible = !(n == 0) := by
  unfold showTab
  rw [if_neg fun hh => h (by simpa using hh)]

theorem showTab_steps_or (s : WState) (n : Int) :
    (showTab s n).steps = s.steps ∨
      (showTab s n).steps = fixStepIndicator s.steps n := by
  unfold showTab
  split
  · exact Or.inl rfl
  · exact Or.inr rfl

theorem nextPrevMove_elems (s : WState) (n : Int) :
    (nextPrevMove s n).1.elems = s.elems := by
  unfold nextPrevMove
  split
  · rfl
  · show (showTab _ _).elems = s.elems
    rw [showTab_elems]

theorem nextPrevMove_steps_or (s : WState) (n : Int) :
    (nextPrevMove s n).1.steps = s.steps ∨
      (nextPrevMove s n).1.steps = fixStepIndicator s.steps (s.currentTab + n) := by
  unfold nextPrevMove
  split
  · exact Or.inl rfl
  · exact showTab_steps_or _ _

theorem nextPrev_bwd (s : WState) : nextPrev s (-1) = nextPrevMove s (-1) := by
  unfold nextPrev
  rw [if_neg (by decide)]

theorem nextPrev_fwd_invalid (s : WState)
    (hv : (validateForm s.tabVisible.length s.elems s.currentTab).2 = false) :
    nextPrev s 1 =
      ({ s with elems := (validateForm s.tabVisible.length s.elems s.currentTab).1 },
        some false) := by
  unfold nextPrev
  rw [if_pos (show ((1 : Int) == 1) = true from rfl), show validateForm s.tabVisible.length s.elems s.currentTab =
    ((validateForm s.tabVisible.length s.elems s.currentTab).1, false) from by rw [← hv]]

theorem nextPrev_fwd_valid (s : WState)
    (hv : (validateForm s.tabVisible.length s.elems s.currentTab).2 = true) :
    nextPrev s 1 =
      nextPrevMove
        { s with elems := (validateForm s.tabVisible.length s.elems s.currentTab).1 } 1 := by
  unfold nextPrev
  rw [if_pos (show ((1 : Int) == 1) = true from rfl), show validateForm s.tabVisible.length s.elems s.currentTab =
    ((validateForm s.tabVisible.length s.elems s.currentTab).1, true) from by rw [← hv]]

end AddStudent

namespace FlagStudent

theorem showTabF_currentTab (s : WState) (n : Int) :
    (showTab s n).currentTab = s.currentTab := by
  unfold showTab; split <;> rfl

theorem showTabF_elems (s : WState) (n : Int) : (showTab s n).elems = s.elems := by
  unfold showTab; split <;> rfl

theorem showTabF_submitted (s : WState) (n : Int) :
    (showTab s n).submitted = s.submitted := by
  unfold showTab; split <;> rfl

theorem showTabF_displayed (s : WState) (n : Int) :
    (showTab s n).displayed = s.displayed ++ [n] := by
  unfold showTab; split <;> rfl

theorem nextPrevF_bwd (s : WState) : nextPrev s (-1) = nextPrevMove s (-1) := by
  unfold nextPrev
  rw [if_neg (by decide)]

theorem nextPrevMoveF_elems (s : WState) (n : Int) :
    (nextPrevMove s n).1.elems = s.elems := by
  unfold nextPrevMove
  split
  · rfl
  · show (showTab _ _).elems = s.elems
    rw [showTabF_elems]

theorem nextPrevF_fwd_invalid (s : WState)
    (hv : (validateForm s.tabVisible.length s.elems s.steps s.currentTab).2 = false) :
    nextPrev s 1 =
      ({ s with
          elems := (validateForm s.tabVisible.length s.elems s.steps s.currentTab).1.1,
          steps := (validateForm s.tabVisible.length s.elems s.steps s.currentTab).1.2 },
        some false) := by
  unfold nextPrev
  rw [if_pos (show ((1 : Int) == 1) = true from rfl), show validateForm s.tabVisible.length s.elems s.steps s.currentTab =
    (((validateForm s.tabVisible.length s.elems s.steps s.currentTab).1.1,
      (validateForm s.tabVisible.length s.elems s.steps s.currentTab).1.2), false) from by
    rw [← hv]]

theorem nextPrevF_fwd_valid (s : WState)
    (hv : (validateForm s.tabVisible.length s.elems s.steps s.currentTab).2 = true) :
    nextPrev s 1 =
      nextPrevMove
        { s with
          elems := (validateForm s.tabVisible.length s.elems s.steps s.currentTab).1.1,
          steps := (validateForm s.tabVisible.length s.elems s.steps s.currentTab).1.2 } 1 := by
  unfold nextPrev
  rw [if_pos (show ((1 : Int) == 1) = true from rfl), show validateForm s.tabVisible.length s.elems s.steps s.currentTab =
    (((validateForm s.tabVisible.length s.elems s.steps s.currentTab).1.1,
      (validateForm s.tabVisible.length s.elems s.steps s.currentTab).1.2), true) from by
    rw [← hv]]

end FlagStudent

namespace RegForm

theorem showTabR_currentTab (s : WState) (n : Int) :
    (showTab s n).currentTab = s.currentTab := rfl

theorem showTabR_elems (s : WState) (n : Int) : (showTab s n).elems = s.elems := rfl

theorem showTabR_submitted (s : WState) (n : Int) :
    (showTab s n).submitted = s.submitted := rfl

theorem showTabR_displayed (s : WState) (n : Int) :
    (showTab s n).displayed = s.displayed ++ [n] := rfl

theorem nextPrevR_bwd (s : WState) : nextPrev s (-1) = nextPrevMove s (-1) := by
  unfold nextPrev
  rw [if_neg (by decide)]

theorem nextPrevR_fwd_invalid (s : WState)
    (hv : (validateForm s.elems s.steps s.currentTab).2 = false) :
    nextPrev s 1 =
      ({ s with
          elems := (validateForm s.elems s.steps s.currentTab).1.1,
          steps := (validateForm s.elems s.steps s.currentTab).1.2 },
        some false) := by
  unfold nextPrev
  rw [if_pos (show ((1 : Int) == 1) = true from rfl), show validateForm s.elems s.steps s.currentTab =
    (((validateForm s.elems s.steps s.currentTab).1.1,
      (validateForm s.elems s.steps s.currentTab).1.2), false) from by rw [← hv]]

theorem nextPrevR_fwd_valid (s : WState)
    (hv : (validateForm s.elems s.steps s.currentTab).2 = true) :
    nextPrev s 1 =
      nextPrevMove
        { s with
          elems := (validateForm s.elems s.steps s.currentTab).1.1,
          steps := (validateForm s.elems s.steps s.currentTab).1.2 } 1 := by
  unfold nextPrev
  rw [if_pos (show ((1 : Int) == 1) = true from rfl), show validateForm s.elems s.steps s.currentTab =
    (((validateForm s.elems s.steps s.currentTab).1.1,
      (validateForm s.elems s.steps s.currentTab).1.2), true) from by rw [← hv]]

end RegForm

theorem all_false_iff (p : Nat → Bool) (idxs : List Nat) :
    idxs.all p = false ↔ ∃ i ∈ idxs, p i = false := by
  rw [Bool.eq_false_iff, Ne, List.all_eq_true]
  push_neg
  simp [Bool.not_eq_true]

theorem mem_clRemove {tok x : String} {cls : List String} :
    x ∈ clRemove tok cls ↔ x ∈ cls ∧ x ≠ tok := by
  unfold clRemove
  rw [List.mem_filter]
  simp [bne_iff_ne]

theorem active_not_mem_clRemove (cls : List String) :
    "active" ∉ clRemove "active" cls :=
  fun hm => (mem_clRemove.mp hm).2 rfl

theorem mem_clAdd_self (tok : String) (cls : List String) : tok ∈ clAdd tok cls := by
  unfold clAdd
  split
  · next hc => exact List.elem_iff.mp hc
  · exact List.mem_append_right _ (List.mem_singleton.mpr rfl)

theorem clAdd_of_not_mem {tok : String} {cls : List String} (h : tok ∉ cls) :
    clAdd tok cls = cls ++ [tok] := by
  unfold clAdd
  rw [if_neg fun hc => h (List.elem_iff.mp hc)]

theorem clRemove_clRemove (tok : String) (cls : List String) :
    clRemove tok (clRemove tok cls) = clRemove tok cls := by
  unfold clRemove
  rw [List.filter_filter]
  congr 1
  funext a
  rw [Bool.and_self]

theorem clRemove_append_self (tok : String) (l : List String) :
    clRemove tok (l ++ [tok]) = clRemove tok l := by
  unfold clRemove
  rw [List.filter_append]
  simp

/-- The part of an element that the flag_student validation result can
depend on: everything except the `checked` state and the `invalid` mark. -/
def Elem.shape (e : Elem) : Elem := { e with checked := false, invalid := false }

theorem Elem.shape_inj {e f : Elem} (h : e.shape = f.shape) :
    e.tag = f.tag ∧ e.type = f.type ∧ e.name = f.name ∧ e.value = f.value ∧
    e.required = f.required ∧ e.tab = f.tab := by
  cases e; cases f
  simpa [Elem.shape, Elem.mk.injEq] using h

theorem shapeMap_getElem? {elems elems' : List Elem}
    (h : elems.map Elem.shape = elems'.map Elem.shape) (i : Nat) :
    (elems[i]?).map Elem.shape = (elems'[i]?).map Elem.shape := by
  rw [← List.getElem?_map, ← List.getElem?_map, h]

theorem tabIdxs_shape_congr {elems elems' : List Elem}
    (h : elems.map Elem.shape = elems'.map Elem.shape) (t : Nat) :
    tabIdxs elems t = tabIdxs elems' t := by
  unfold tabIdxs
  have hlen : elems.length = elems'.length := by
    have := congrArg List.length h
    simpa using this
  rw [hlen]
  congr 1
  funext i
  have hi := shapeMap_getElem? h i
  cases h1 : elems[i]? with
  | none =>
    rw [h1] at hi
    cases h2 : elems'[i]? with
    | none => rfl
    | some f => rw [h2] at hi; simp at hi
  | some e =>
    rw [h1] at hi
    cases h2 : elems'[i]? with
    | none => rw [h2] at hi; simp at hi
    | some f =>
      rw [h2] at hi
      simp only [Option.map_some'] at hi
      injection hi with hi
      obtain ⟨-, -, -, -, -, htab⟩ := Elem.shape_inj hi
      simp [htab]

/-- The safety invariant of the add_student wizard: at least one tab
exists, and while the form has not been submitted the current tab index is
in range and the previous-button visibility tracks `currentTab ≠ 0`. -/
def WizInv (s : WState) : Prop :=
  1 ≤ s.tabVisible.length ∧
  (s.submitted = false →
    0 ≤ s.currentTab ∧ s.currentTab < (s.tabVisible.length : Int) ∧
    s.prevVisible = !(s.currentTab == 0))

theorem AddStudent.nextPrevMove_inv (t : WState) (n : Int)
    (hlen : 1 ≤ t.tabVisible.length)
    (h0 : 0 ≤ t.currentTab + n) (h1 : t.currentTab < (t.tabVisible.length : Int)) :
    WizInv (AddStudent.nextPrevMove t n).1 := by
  unfold AddStudent.nextPrevMove
  split
  · next hle =>
    refine ⟨?_, ?_⟩
    · show 1 ≤ (setIdxI t.tabVisible t.currentTab false).length
      rw [length_setIdxI]
      exact hlen
    · intro hfalse
      cases hfalse
  · next hle =>
    constructor
    · rw [AddStudent.showTab_length]
      show 1 ≤ (setIdxI t.tabVisible t.currentTab false).length
      rw [length_setIdxI]
      exact hlen
    · intro _
      rw [AddStudent.showTab_currentTab, AddStudent.showTab_length,
        AddStudent.showTab_prevVisible _ _ (by
          show (setIdxI t.tabVisible t.currentTab false).length ≠ 0
          rw [length_setIdxI]
          omega)]
      refine ⟨?_, ?_, rfl⟩
      · show 0 ≤ t.currentTab + n
        exact h0
      · show t.currentTab + n < ((setIdxI t.tabVisible t.currentTab false).length : Int)
        rw [length_setIdxI]
        omega

theorem reach_inv {s : WState} (h : Reach s) : WizInv s := by
  induction h with
  | init vis0 elems steps pv nl hv =>
    constructor
    · rw [AddStudent.showTab_length]
      exact hv
    · intro _
      rw [AddStudent.showTab_currentTab, AddStudent.showTab_prevVisible _ _ (by
        show vis0.length ≠ 0
        omega)]
      refine ⟨le_refl (0 : Int), ?_, rfl⟩
      rw [AddStudent.showTab_length]
      show (0 : Int) < (vis0.length : Int)
      omega
  | fwd hr hsub ih =>
    next s' =>
      obtain ⟨hlen, hinv⟩ := ih
      obtain ⟨h0, h1, hpv⟩ := hinv hsub
      by_cases hv : (AddStudent.validateForm s'.tabVisible.length s'.elems s'.currentTab).2 = true
      · rw [AddStudent.nextPrev_fwd_valid s' hv]
        exact AddStudent.nextPrevMove_inv _ 1 hlen
          (show (0 : Int) ≤ s'.currentTab + 1 by omega) h1
      · have hv' :
            (AddStudent.validateForm s'.tabVisible.length s'.elems s'.currentTab).2 = false := by
          cases h2 : (AddStudent.validateForm s'.tabVisible.length s'.elems s'.currentTab).2 with
          | false => rfl
          | true => exact absurd h2 hv
        rw [AddStudent.nextPrev_fwd_invalid s' hv']
        exact ⟨hlen, fun _ => ⟨h0, h1, hpv⟩⟩
  | bwd hr hsub hpv ih =>
    next s' =>
      obtain ⟨hlen, hinv⟩ := ih
      obtain ⟨h0, h1, hpveq⟩ := hinv hsub
      have hbeq : (s'.currentTab == 0) = false := by
        cases hb : (s'.currentTab == 0) with
        | false => rfl
        | true =>
          rw [hpveq, hb] at hpv
          cases hpv
      have hct : s'.currentTab ≠ 0 := by
        intro hh
        rw [hh] at hbeq
        simp at hbeq
      rw [AddStudent.nextPrev_bwd]
      exact AddStudent.nextPrevMove_inv s' (-1) hlen (by omega) h1

theorem mem_inputTabIdxs {elems : List Elem} {t : Nat} {i : Nat} :
    i ∈ inputTabIdxs elems t ↔
      ∃ f, elems[i]? = some f ∧ f.tab = t ∧ f.tag = "input" := by
  unfold inputTabIdxs
  rw [List.mem_filter, List.mem_range]
  constructor
  · rintro ⟨hi, hcond⟩
    cases h : elems[i]? with
    | none => rw [h] at hcond; cases hcond
    | some f =>
      rw [h] at hcond
      simp only [Bool.and_eq_true, beq_iff_eq] at hcond
      exact ⟨f, rfl, hcond.1, hcond.2⟩
  · rintro ⟨f, hf, ht, htag⟩
    refine ⟨?_, ?_⟩
    · rcases List.getElem?_eq_some_iff.mp hf with ⟨hl, -⟩; exact hl
    · rw [hf]
      simp [ht, htag]

theorem FlagStudent.fixStepIndicatorF_getElem? (steps : List (List String)) (n : Int)
    (j : Nat) :
    (FlagStudent.fixStepIndicator steps n)[j]? =
      if n = (j : Int) then
        ((steps[j]?).map (clRemove "active")).map (clAdd "active")
      else (steps[j]?).map (clRemove "active") := by
  unfold FlagStudent.fixStepIndicator
  rw [getElem?_modifyIdxI, List.getElem?_map]

theorem FlagStudent.fixStepIndicatorF_active (steps : List (List String)) (n : Int)
    (j : Nat) (cls : List String)
    (hj : (FlagStudent.fixStepIndicator steps n)[j]? = some cls) :
    ("active" ∈ cls ↔ (j : Int) = n) := by
  rw [FlagStudent.fixStepIndicatorF_getElem?] at hj
  by_cases hnj : n = (j : Int)
  · rw [if_pos hnj] at hj
    cases hsj : steps[j]? with
    | none => rw [hsj] at hj; cases hj
    | some cls0 =>
      rw [hsj] at hj
      simp only [Option.map_some'] at hj
      injection hj with hj
      subst hj
      constructor
      · intro _
        exact hnj.symm
      · intro _
        exact mem_clAdd_self _ _
  · rw [if_neg hnj] at hj
    cases hsj : steps[j]? with
    | none => rw [hsj] at hj; cases hj
    | some cls0 =>
      rw [hsj] at hj
      simp only [Option.map_some'] at hj
      injection hj with hj
      subst hj
      constructor
      · intro hmem
        exact absurd (mem_clRemove.mp hmem).2 (by simp)
      · intro hh
        exact absurd hh.symm hnj

theorem FlagStudent.fixStepIndicatorF_exists (steps : List (List String)) (n : Int)
    (h0 : 0 ≤ n) (h1 : n < (steps.length : Int)) :
    ∃ cls, (FlagStudent.fixStepIndicator steps n)[n.toNat]? = some cls ∧
      "active" ∈ cls := by
  have hlt : n.toNat < steps.length := by omega
  refine ⟨clAdd "active" (clRemove "active" steps[n.toNat]), ?_, mem_clAdd_self _ _⟩
  rw [FlagStudent.fixStepIndicatorF_getElem?, if_pos (by omega),
    List.getElem?_eq_getElem hlt]
  rfl

theorem FlagStudent.fixStepIndicatorF_idem (steps : List (List String)) (n : Int) :
    FlagStudent.fixStepIndicator (FlagStudent.fixStepIndicator steps n) n =
      FlagStudent.fixStepIndicator steps n := by
  apply List.ext_getElem?
  intro j
  rw [FlagStudent.fixStepIndicatorF_getElem?, FlagStudent.fixStepIndicatorF_getElem?]
  by_cases hnj : n = (j : Int)
  · rw [if_pos hnj, if_pos hnj]
    cases hsj : steps[j]? with
    | none => rfl
    | some cls =>
      simp only [Option.map_some']
      have hnm := active_not_mem_clRemove cls
      rw [clAdd_of_not_mem hnm, clRemove_append_self, clRemove_clRemove,
        clAdd_of_not_mem hnm]
  · rw [if_neg hnj, if_neg hnj]
    cases hsj : steps[j]? with
    | none => rfl
    | some cls =>
      simp only [Option.map_some']
      rw [clRemove_clRemove]

theorem AddStudent.fixStepIndicator_getElem? (steps : List (List String)) (n : Int)
    (j : Nat) :
    (AddStudent.fixStepIndicator steps n)[j]? =
      if n = (j : Int) then
        ((steps[j]?).map (fun cls => cls.erase "active")).map (fun cls => cls ++ ["active"])
      else (steps[j]?).map (fun cls => cls.erase "active") := by
  unfold AddStudent.fixStepIndicator
  rw [getElem?_modifyIdxI, List.getElem?_map]

theorem erase_active_not_mem {cls : List String} (h : cls.count "active" ≤ 1) :
    "active" ∉ cls.erase "active" := by
  intro hm
  have hpos := List.count_pos_iff.mpr hm
  rw [List.count_erase_self] at hpos
  omega

theorem AddStudent.fixStepIndicator_active (steps : List (List String)) (n : Int)
    (hcount : ∀ cls ∈ steps, cls.count "active" ≤ 1)
    (j : Nat) (cls : List String)
    (hj : (AddStudent.fixStepIndicator steps n)[j]? = some cls) :
    ("active" ∈ cls ↔ (j : Int) = n) := by
  rw [AddStudent.fixStepIndicator_getElem?] at hj
  by_cases hnj : n = (j : Int)
  · rw [if_pos hnj] at hj
    cases hsj : steps[j]? with
    | none => rw [hsj] at hj; cases hj
    | some cls0 =>
      rw [hsj] at hj
      simp only [Option.map_some'] at hj
      injection hj with hj
      subst hj
      constructor
      · intro _
        exact hnj.symm
      · intro _
        exact List.mem_append_right _ (List.mem_singleton.mpr rfl)
  · rw [if_neg hnj] at hj
    cases hsj : steps[j]? with
    | none => rw [hsj] at hj; cases hj
    | some cls0 =>
      rw [hsj] at hj
      simp only [Option.map_some'] at hj
      injection hj with hj
      subst hj
      constructor
      · intro hmem
        exact absurd hmem (erase_active_not_mem (hcount cls0 (List.getElem?_mem hsj)))
      · intro hh
        exact absurd hh.symm hnj

theorem AddStudent.fixStepIndicator_exists (steps : List (List String)) (n : Int)
    (h0 : 0 ≤ n) (h1 : n < (steps.length : Int)) :
    ∃ cls, (AddStudent.fixStepIndicator steps n)[n.toNat]? = some cls ∧
      "active" ∈ cls := by
  have hlt : n.toNat < steps.length := by omega
  refine ⟨steps[n.toNat].erase "active" ++ ["active"], ?_,
    List.mem_append_right _ (List.mem_singleton.mpr rfl)⟩
  rw [AddStudent.fixStepIndicator_getElem?, if_pos (by omega),
    List.getElem?_eq_getElem hlt]
  rfl

theorem AddStudent.fixStepIndicator_idem (steps : List (List String)) (n : Int)
    (hcount : ∀ cls ∈ steps, cls.count "active" ≤ 1) :
    AddStudent.fixStepIndicator (AddStudent.fixStepIndicator steps n) n =
      AddStudent.fixStepIndicator steps n := by
  apply List.ext_getElem?
  intro j
  rw [AddStudent.fixStepIndicator_getElem?, AddStudent.fixStepIndicator_getElem?]
  by_cases hnj : n = (j : Int)
  · rw [if_pos hnj, if_pos hnj]
    cases hsj : steps[j]? with
    | none => rfl
    | some cls =>
      simp only [Option.map_some']
      have hnm := erase_active_not_mem (hcount cls (List.getElem?_mem hsj))
      rw [List.erase_append_right _ hnm]
      simp
  · rw [if_neg hnj, if_neg hnj]
    cases hsj : steps[j]? with
    | none => rfl
    | some cls =>
      simp only [Option.map_some']
      rw [List.erase_of_not_mem (erase_active_not_mem (hcount cls (List.getElem?_mem hsj)))]

theorem FlagStudent.validateFormF_fst_getElem? (tabCount : Nat) (elems : List Elem)
    (steps : List (List String)) (ct : Int) (h0 : 0 ≤ ct) (h1 : ct < (tabCount : Int))
    (j : Nat) (e : Elem) (hj : elems[j]? = some e) (htab : e.tab = ct.toNat) :
    (FlagStudent.validateForm tabCount elems steps ct).1.1[j]? =
      some { e with invalid := FlagStudent.failsCheck e } := by
  rw [FlagStudent.validateFormF_expand _ _ _ _ h0 h1]
  have hmem : j ∈ tabIdxs elems ct.toNat := AddStudent.mem_tabIdxs.mpr ⟨e, hj, htab⟩
  have hloop := FlagStudent.vfLoopF_getElem? (tabIdxs elems ct.toNat) elems true j e hj
  rw [if_pos hmem] at hloop
  split
  · exact hloop
  · exact hloop

theorem RegForm.validateFormR_fst_getElem? (elems : List Elem)
    (steps : List (List String)) (ct : Int) (h0 : 0 ≤ ct)
    (j : Nat) (e : Elem) (hj : elems[j]? = some e) :
    (RegForm.validateForm elems steps ct).1.1[j]? =
      some { e with invalid := e.invalid ||
        (decide (e.tab = ct.toNat ∧ e.tag = "input") && RegForm.failsCheck e) } := by
  rw [RegForm.validateFormR_expand _ _ _ h0]
  have hiff : (j ∈ inputTabIdxs elems ct.toNat) ↔ (e.tab = ct.toNat ∧ e.tag = "input") := by
    rw [mem_inputTabIdxs]
    constructor
    · rintro ⟨f, hf, ht1, ht2⟩
      rw [hj] at hf
      injection hf with hf
      subst hf
      exact ⟨ht1, ht2⟩
    · intro ⟨ht1, ht2⟩
      exact ⟨e, hj, ht1, ht2⟩
  have hloop := RegForm.vfLoopR_getElem? (inputTabIdxs elems ct.toNat) elems true j e hj
  rw [decide_eq_decide.mpr hiff] at hloop
  split
  · exact hloop
  · exact hloop

theorem FlagStudent.validateForm_shape_congr (tabCount : Nat)
    (elems elems' : List Elem) (steps steps' : List (List String)) (ct : Int)
    (h0 : 0 ≤ ct) (h1 : ct < (tabCount : Int))
    (hsh : elems.map Elem.shape = elems'.map Elem.shape) :
    (FlagStudent.validateForm tabCount elems steps ct).2 =
      (FlagStudent.validateForm tabCount elems' steps' ct).2 := by
  rw [FlagStudent.validateFormF_snd _ _ _ _ h0 h1,
    FlagStudent.validateFormF_snd _ _ _ _ h0 h1,
    tabIdxs_shape_congr hsh]
  congr 1
  funext i
  have hi := shapeMap_getElem? hsh i
  unfold FlagStudent.checkPass
  cases ha : elems[i]? with
  | none =>
    rw [ha] at hi
    cases hb : elems'[i]? with
    | none => rfl
    | some f => rw [hb] at hi; simp at hi
  | some e =>
    rw [ha] at hi
    cases hb : elems'[i]? with
    | none => rw [hb] at hi; simp at hi
    | some f =>
      rw [hb] at hi
      simp only [Option.map_some'] at hi
      injection hi with hi
      obtain ⟨-, -, -, hvalue, hrequired, -⟩ := Elem.shape_inj hi
      simp [FlagStudent.failsCheck, hvalue, hrequired]

theorem AddStudent.nextPrev_steps_or (s : WState) (n : Int) :
    (AddStudent.nextPrev s n).1.steps = s.steps ∨
      (AddStudent.nextPrev s n).1.steps =
        AddStudent.fixStepIndicator s.steps (s.currentTab + n) := by
  unfold AddStudent.nextPrev
  by_cases hn : (n == 1) = true
  · rw [if_pos hn]
    rcases hv : AddStudent.validateForm s.tabVisible.length s.elems s.currentTab with ⟨es, b⟩
    cases b
    · exact Or.inl rfl
    · exact AddStudent.nextPrevMove_steps_or _ n
  · rw [if_neg hn]
    exact AddStudent.nextPrevMove_steps_or s n

/-- C1: in both the add_student and the flag_student wizard, `advance(+1)`
(`nextPrev(1)`) called when `validate(currentStep)` fails returns the failure
signal `false` and leaves `currentStep`, the tab visibility, and the trace of
`display` (`showTab`) calls unchanged; backward navigation `advance(-1)` is
never gated by validation: `nextPrev(-1)` is exactly the unconditional move
`nextPrevMove` and never touches the form controls. -/
theorem claim_C1_advance_blocked :
    (∀ s : WState,
      (AddStudent.validateForm s.tabVisible.length s.elems s.currentTab).2 = false →
        (AddStudent.nextPrev s 1).1.currentTab = s.currentTab ∧
        (AddStudent.nextPrev s 1).1.tabVisible = s.tabVisible ∧
        (AddStudent.nextPrev s 1).1.displayed = s.displayed ∧
        (AddStudent.nextPrev s 1).2 = some false) ∧
    (∀ s : WState,
      (FlagStudent.validateForm s.tabVisible.length s.elems s.steps s.currentTab).2 = false →
        (FlagStudent.nextPrev s 1).1.currentTab = s.currentTab ∧
        (FlagStudent.nextPrev s 1).1.tabVisible = s.tabVisible ∧
        (FlagStudent.nextPrev s 1).1.displayed = s.displayed ∧
        (FlagStudent.nextPrev s 1).2 = some false) ∧
    (∀ s : WState, AddStudent.nextPrev s (-1) = AddStudent.nextPrevMove s (-1) ∧
      (AddStudent.nextPrev s (-1)).1.elems = s.elems) ∧
    (∀ s : WState, FlagStudent.nextPrev s (-1) = FlagStudent.nextPrevMove s (-1) ∧
      (FlagStudent.nextPrev s (-1)).1.elems = s.elems) := by
  refine ⟨?_, ?_, ?_, ?_⟩
  · intro s hv
    rw [AddStudent.nextPrev_fwd_invalid s hv]
    exact ⟨rfl, rfl, rfl, rfl⟩
  · intro s hv
    rw [FlagStudent.nextPrevF_fwd_invalid s hv]
    exact ⟨rfl, rfl, rfl, rfl⟩
  · intro s
    refine ⟨AddStudent.nextPrev_bwd s, ?_⟩
    rw [AddStudent.nextPrev_bwd]
    exact AddStudent.nextPrevMove_elems s (-1)
  · intro s
    refine ⟨FlagStudent.nextPrevF_bwd s, ?_⟩
    rw [FlagStudent.nextPrevF_bwd]
    exact FlagStudent.nextPrevMoveF_elems s (-1)

/-- Witness for C1 at a concrete wizard state whose single required field is
empty, so validation fails. -/
theorem claim_C1_witness :
    (AddStudent.validateForm
      (WState.mk 0 [true] [⟨"input", "text", "fname", "", false, true, false, 0⟩]
        [["step"]] false "Next" false [0]).tabVisible.length
      (WState.mk 0 [true] [⟨"input", "text", "fname", "", false, true, false, 0⟩]
        [["step"]] false "Next" false [0]).elems
      (WState.mk 0 [true] [⟨"input", "text", "fname", "", false, true, false, 0⟩]
        [["step"]] false "Next" false [0]).currentTab).2 = false ∧
    (AddStudent.nextPrev
      (WState.mk 0 [true] [⟨"input", "text", "fname", "", false, true, false, 0⟩]
        [["step"]] false "Next" false [0]) 1).1.currentTab = 0 ∧
    (AddStudent.nextPrev
      (WState.mk 0 [true] [⟨"input", "text", "fname", "", false, true, false, 0⟩]
        [["step"]] false "Next" false [0]) 1).2 = some false := by
  have h := claim_C1_advance_blocked.1
    (WState.mk 0 [true] [⟨"input", "text", "fname", "", false, true, false, 0⟩]
      [["step"]] false "Next" false [0]) (by decide)
  exact ⟨by decide, h.1, h.2.2.2⟩

/-- C2: in both the add_student (DOMContentLoaded) and the regForm wizard, an
`advance(+1)` whose gating `validate` succeeds increases `currentStep` by
exactly 1; if the new index is still below `stepCount` the wizard stays
unsubmitted, records a `display(currentStep)` call and returns `undefined`
(`none`); the call that makes `currentStep ≥ stepCount` submits the form and
records no further `display` call. -/
theorem claim_C2_advance_progress :
    (∀ s : WState,
      (AddStudent.validateForm s.tabVisible.length s.elems s.currentTab).2 = true →
        (AddStudent.nextPrev s 1).1.currentTab = s.currentTab + 1 ∧
        (s.currentTab + 1 < (s.tabVisible.length : Int) →
          (AddStudent.nextPrev s 1).1.submitted = s.submitted ∧
          (AddStudent.nextPrev s 1).1.displayed = s.displayed ++ [s.currentTab + 1] ∧
          (AddStudent.nextPrev s 1).2 = none) ∧
        ((s.tabVisible.length : Int) ≤ s.currentTab + 1 →
          (AddStudent.nextPrev s 1).1.submitted = true ∧
          (AddStudent.nextPrev s 1).1.displayed = s.displayed ∧
          (AddStudent.nextPrev s 1).2 = some false)) ∧
    (∀ s : WState,
      (RegForm.validateForm s.elems s.steps s.currentTab).2 = true →
        (RegForm.nextPrev s 1).1.currentTab = s.currentTab + 1 ∧
        (s.currentTab + 1 < (s.tabVisible.length : Int) →
          (RegForm.nextPrev s 1).1.submitted = s.submitted ∧
          (RegForm.nextPrev s 1).1.displayed = s.displayed ++ [s.currentTab + 1] ∧
          (RegForm.nextPrev s 1).2 = none) ∧
        ((s.tabVisible.length : Int) ≤ s.currentTab + 1 →
          (RegForm.nextPrev s 1).1.submitted = true ∧
          (RegForm.nextPrev s 1).1.displayed = s.displayed ∧
          (RegForm.nextPrev s 1).2 = some false)) := by
  constructor
  · intro s hv
    rw [AddStudent.nextPrev_fwd_valid s hv]
    unfold AddStudent.nextPrevMove
    split
    · next hle =>
      refine ⟨rfl, ?_, ?_⟩
      · intro hlt
        exact absurd hlt (not_lt.mpr hle)
      · intro _
        exact ⟨rfl, rfl, rfl⟩
    · next hle =>
      refine ⟨?_, ?_, ?_⟩
      · rw [AddStudent.showTab_currentTab]
      · intro _
        refine ⟨?_, ?_, rfl⟩
        · rw [AddStudent.showTab_submitted]
        · rw [AddStudent.showTab_displayed]
      · intro hle2
        exact absurd hle2 hle
  · intro s hv
    rw [RegForm.nextPrevR_fwd_valid s hv]
    unfold RegForm.nextPrevMove
    split
    · next hle =>
      refine ⟨rfl, ?_, ?_⟩
      · intro hlt
        exact absurd hlt (not_lt.mpr hle)
      · intro _
        exact ⟨rfl, rfl, rfl⟩
    · next hle =>
      refine ⟨?_, ?_, ?_⟩
      · rw [RegForm.showTabR_currentTab]
      · intro _
        refine ⟨?_, ?_, rfl⟩
        · rw [RegForm.showTabR_submitted]
        · rw [RegForm.showTabR_displayed]
      · intro hle2
        exact absurd hle2 hle

/-- Witness for C2 at a concrete two-tab wizard state whose first tab
validates, so the advance lands on tab 1 with a display call, and at a
concrete one-tab state where the advance submits. -/
theorem claim_C2_witness :
    (AddStudent.validateForm
      (WState.mk 0 [true, false] [⟨"input", "text", "fname", "Alice", false, true, false, 0⟩]
        [["step"], ["step"]] false "Next" false [0]).tabVisible.length
      (WState.mk 0 [true, false] [⟨"input", "text", "fname", "Alice", false, true, false, 0⟩]
        [["step"], ["step"]] false "Next" false [0]).elems
      (WState.mk 0 [true, false] [⟨"input", "text", "fname", "Alice", false, true, false, 0⟩]
        [["step"], ["step"]] false "Next" false [0]).currentTab).2 = true ∧
    (AddStudent.nextPrev
      (WState.mk 0 [true, false] [⟨"input", "text", "fname", "Alice", false, true, false, 0⟩]
        [["step"], ["step"]] false "Next" false [0]) 1).1.currentTab = 1 ∧
    (AddStudent.nextPrev
      (WState.mk 0 [true, false] [⟨"input", "text", "fname", "Alice", false, true, false, 0⟩]
        [["step"], ["step"]] false "Next" false [0]) 1).2 = none := by
  have h := claim_C2_advance_progress.1
    (WState.mk 0 [true, false] [⟨"input", "text", "fname", "Alice", false, true, false, 0⟩]
      [["step"], ["step"]] false "Next" false [0]) (by decide)
  refine ⟨by decide, ?_, (h.2.1 (by decide)).2.2⟩
  rw [h.1]
  decide

/-- C3 counterexample: in the regForm `validateForm` a field that is not
required and is empty does cause validation to fail, contrary to the claim
that non-required empty fields never fail. -/
theorem claim_C3_counterexample :
    ([(⟨"input", "text", "nickname", "", false, false, false, 0⟩ : Elem)].all
      (fun f => !f.required)) = true ∧
    (RegForm.validateForm [⟨"input", "text", "nickname", "", false, false, false, 0⟩]
      [["step"]] 0).2 = false := by
  exact ⟨by decide, by decide⟩

/-- C3 (amended): the add_student (DOMContentLoaded) `validateForm` fails
exactly when some field of the step is required and empty — whitespace-only
values count as empty, and a required radio fails exactly when no member of
its document-wide name group is checked — and, for well-formed radio groups,
its `invalid` marks on the step's fields coincide with the failing fields
(`failsCheck`, which also marks every input of a failing group).  The
flag_student variant fails exactly when a required field of the step has an
empty value string (radios included, checked state ignored).  The regForm
variant instead fails exactly when some `input` of the step has an empty
value, regardless of `required`. -/
theorem claim_C3_required_empty_validation :
    (∀ (tabCount : Nat) (elems : List Elem) (ct : Int), 0 ≤ ct → ct < (tabCount : Int) →
      ((AddStudent.validateForm tabCount elems ct).2 = false ↔
        ∃ (j : Nat) (f : Elem), elems[j]? = some f ∧ f.tab = ct.toNat ∧
          AddStudent.failsCheck elems f = true)) ∧
    (∀ (tabCount : Nat) (elems : List Elem) (ct : Int),
      AddStudent.RadioGroupsWF elems → 0 ≤ ct → ct < (tabCount : Int) →
      ∀ (j : Nat) (e : Elem), elems[j]? = some e → e.tab = ct.toNat →
        (AddStudent.validateForm tabCount elems ct).1[j]? =
          some { e with invalid := AddStudent.failsCheck elems e }) ∧
    (∀ (tabCount : Nat) (elems : List Elem) (steps : List (List String)) (ct : Int),
      0 ≤ ct → ct < (tabCount : Int) →
      ((FlagStudent.validateForm tabCount elems steps ct).2 = false ↔
        ∃ (j : Nat) (f : Elem), elems[j]? = some f ∧ f.tab = ct.toNat ∧
          FlagStudent.failsCheck f = true)) ∧
    (∀ (elems : List Elem) (steps : List (List String)) (ct : Int), 0 ≤ ct →
      ((RegForm.validateForm elems steps ct).2 = false ↔
        ∃ (j : Nat) (f : Elem), elems[j]? = some f ∧ f.tab = ct.toNat ∧
          f.tag = "input" ∧ f.value = "")) := by
  refine ⟨?_, ?_, ?_, ?_⟩
  · intro tabCount elems ct h0 h1
    exact AddStudent.validateForm_false_iff tabCount elems ct h0 h1
  · intro tabCount elems ct hwf h0 h1 j e hj htab
    exact AddStudent.validateForm_invalid_eq tabCount elems ct hwf h0 h1 j e hj htab
  · intro tabCount elems steps ct h0 h1
    rw [FlagStudent.validateFormF_snd _ _ _ _ h0 h1, all_false_iff]
    constructor
    · rintro ⟨i, hi, hcp⟩
      obtain ⟨f, hf, htab⟩ := AddStudent.mem_tabIdxs.mp hi
      refine ⟨i, f, hf, htab, ?_⟩
      cases hfc : FlagStudent.failsCheck f with
      | true => rfl
      | false =>
        rw [show FlagStudent.checkPass elems i = true by
          simp [FlagStudent.checkPass, hf, hfc]] at hcp
        cases hcp
    · rintro ⟨j, f, hf, htab, hfail⟩
      refine ⟨j, AddStudent.mem_tabIdxs.mpr ⟨f, hf, htab⟩, ?_⟩
      simp [FlagStudent.checkPass, hf, hfail]
  · intro elems steps ct h0
    rw [RegForm.validateFormR_snd _ _ _ h0, all_false_iff]
    constructor
    · rintro ⟨i, hi, hcp⟩
      obtain ⟨f, hf, htab, htag⟩ := mem_inputTabIdxs.mp hi
      refine ⟨i, f, hf, htab, htag, ?_⟩
      cases hfc : RegForm.failsCheck f with
      | true => simpa [RegForm.failsCheck] using hfc
      | false =>
        rw [show RegForm.checkPass elems i = true by
          simp [RegForm.checkPass, hf, hfc]] at hcp
        cases hcp
    · rintro ⟨j, f, hf, htab, htag, hempty⟩
      refine ⟨j, mem_inputTabIdxs.mpr ⟨f, hf, htab, htag⟩, ?_⟩
      simp [RegForm.checkPass, RegForm.failsCheck, hf, hempty]

/-- Witness for C3: a single required empty text field makes the add_student
validation fail, through the amended characterization. -/
theorem claim_C3_witness :
    ((0 : Int) ≤ 0 ∧ (0 : Int) < ((1 : Nat) : Int)) ∧
    (AddStudent.validateForm 1
      [⟨"input", "text", "fname", "", false, true, false, 0⟩] 0).2 = false :=
  ⟨⟨by decide, by decide⟩,
    (claim_C3_required_empty_validation.1 1
      [⟨"input", "text", "fname", "", false, true, false, 0⟩] 0
        (by decide) (by decide)).mpr
      ⟨0, ⟨"input", "text", "fname", "", false, true, false, 0⟩,
        by decide, by decide, by decide⟩⟩

/-- C4 counterexample: in the flag_student `validateForm` a required radio
group with no member checked passes validation (each radio's non-empty
`value` attribute satisfies the check), contrary to the claim that the group
validates only when a member is checked. -/
theorem claim_C4_counterexample :
    (FlagStudent.validateForm 1
      [⟨"input", "radio", "yeargroup", "12", false, true, false, 0⟩,
       ⟨"input", "radio", "yeargroup", "13", false, true, false, 0⟩]
      [["step"]] 0).2 = true ∧
    AddStudent.anyChecked
      [⟨"input", "radio", "yeargroup", "12", false, true, false, 0⟩,
       ⟨"input", "radio", "yeargroup", "13", false, true, false, 0⟩]
      "yeargroup" = false := by
  exact ⟨by decide, by decide⟩

/-- C4 (amended): in the add_student variant, when every required non-radio
field of the step is filled, validation succeeds exactly when every required
radio of the step has some member of its document-wide name group checked —
regardless of which member, i.e. validity is computed over the whole group.
The flag_student variant ignores checked state entirely: its result is
invariant under arbitrary changes of the `checked` flags (and of the
`invalid` marks) of the form controls. -/
theorem claim_C4_radio_group :
    (∀ (tabCount : Nat) (elems : List Elem) (ct : Int), 0 ≤ ct → ct < (tabCount : Int) →
      (∀ (j : Nat) (f : Elem), elems[j]? = some f → f.tab = ct.toNat →
        f.required = true → ¬f.type = "radio" →
        (f.value == "" || jsTrim f.value == "") = false) →
      ((AddStudent.validateForm tabCount elems ct).2 = true ↔
        ∀ (j : Nat) (f : Elem), elems[j]? = some f → f.tab = ct.toNat →
          f.required = true → f.type = "radio" →
          AddStudent.anyChecked elems f.name = true)) ∧
    (∀ (tabCount : Nat) (elems elems' : List Elem) (steps steps' : List (List String))
      (ct : Int), 0 ≤ ct → ct < (tabCount : Int) →
      elems.map Elem.shape = elems'.map Elem.shape →
      (FlagStudent.validateForm tabCount elems steps ct).2 =
        (FlagStudent.validateForm tabCount elems' steps' ct).2) := by
  constructor
  · intro tabCount elems ct h0 h1 htext
    rw [show (AddStudent.validateForm tabCount elems ct).2 = true ↔
        ¬(AddStudent.validateForm tabCount elems ct).2 = false by
      cases (AddStudent.validateForm tabCount elems ct).2 <;> simp]
    rw [AddStudent.validateForm_false_iff tabCount elems ct h0 h1]
    push_neg
    constructor
    · intro hall j f hj htab hreq hradio
      cases ha : AddStudent.anyChecked elems f.name with
      | true => rfl
      | false =>
        exfalso
        apply hall j f hj htab
        unfold AddStudent.failsCheck
        rw [hreq, if_pos (by simp [hradio]), ha]
        rfl
    · intro hrad j f hj htab
      by_cases hreq : f.required = true
      · by_cases hradio : f.type = "radio"
        · unfold AddStudent.failsCheck
          rw [hreq, if_pos (by simp [hradio]), hrad j f hj htab hreq hradio]
          simp
        · unfold AddStudent.failsCheck
          rw [hreq, if_neg (by simp [hradio]), htext j f hj htab hreq hradio]
          simp
      · unfold AddStudent.failsCheck
        rw [show f.required = false by
          cases hr : f.required
          · rfl
          · exact absurd hr hreq]
        simp
  · intro tabCount elems elems' steps steps' ct h0 h1 hsh
    exact FlagStudent.validateForm_shape_congr tabCount elems elems' steps steps' ct h0 h1 hsh

/-- Witness for C4: a single checked required radio makes the add_student
validation succeed, and the amended characterization yields that its group
has a checked member. -/
theorem claim_C4_witness :
    ((0 : Int) ≤ 0 ∧ (0 : Int) < ((1 : Nat) : Int)) ∧
    AddStudent.anyChecked
      [⟨"input", "radio", "yeargroup", "12", true, true, false, 0⟩] "yeargroup" = true := by
  refine ⟨⟨by decide, by decide⟩, ?_⟩
  have htext : ∀ (j : Nat) (f : Elem),
      ([(⟨"input", "radio", "yeargroup", "12", true, true, false, 0⟩ : Elem)])[j]? = some f →
      f.tab = (0 : Int).toNat → f.required = true → ¬f.type = "radio" →
      (f.value == "" || jsTrim f.value == "") = false := by
    intro j f hj htab hreq hne
    cases j with
    | zero =>
      injection hj with hj
      have hf : f.type = "radio" := by
        rw [← hj]
        decide
      exact absurd hf hne
    | succ m =>
      simp at hj
  exact (claim_C4_radio_group.1 1
    [⟨"input", "radio", "yeargroup", "12", true, true, false, 0⟩] 0
    (by decide) (by decide) htext).mp (by decide) 0
    ⟨"input", "radio", "yeargroup", "12", true, true, false, 0⟩
    (by decide) (by decide) (by decide) (by decide)

/-- C5 counterexample: the regForm `validateForm` never resets `invalid`
marks — re-validating after the only offending field has been fixed returns
success but the stale mark is still in place, contrary to the claim that
fields are reset to valid before being re-checked. -/
theorem claim_C5_counterexample :
    (RegForm.validateForm [⟨"input", "text", "fname", "Alice", false, true, true, 0⟩]
      [["step"]] 0).2 = true ∧
    (RegForm.validateForm [⟨"input", "text", "fname", "Alice", false, true, true, 0⟩]
      [["step"]] 0).1.1 =
      [⟨"input", "text", "fname", "Alice", false, true, true, 0⟩] := by
  exact ⟨by decide, by decide⟩

/-- C5 (amended): the add_student and flag_student variants reset every
field's `invalid` mark before re-checking — after a successful add_student
validation every field of the step is unmarked, and after any flag_student
validation a field of the step is marked exactly when it currently fails
(`failsCheck`), independently of prior marks — so fixing the only offending
field clears its mark and returns success.  The regForm variant never
resets: a field's final mark is its previous mark OR-ed with its current
failure, so a stale mark survives a successful re-validation. -/
theorem claim_C5_reset_marks :
    (∀ (tabCount : Nat) (elems : List Elem) (ct : Int), 0 ≤ ct → ct < (tabCount : Int) →
      (AddStudent.validateForm tabCount elems ct).2 = true →
      ∀ (j : Nat) (e : Elem), elems[j]? = some e → e.tab = ct.toNat →
        (AddStudent.validateForm tabCount elems ct).1[j]? =
          some { e with invalid := false }) ∧
    (∀ (tabCount : Nat) (elems : List Elem) (steps : List (List String)) (ct : Int),
      0 ≤ ct → ct < (tabCount : Int) →
      ∀ (j : Nat) (e : Elem), elems[j]? = some e → e.tab = ct.toNat →
        (FlagStudent.validateForm tabCount elems steps ct).1.1[j]? =
          some { e with invalid := FlagStudent.failsCheck e }) ∧
    (∀ (elems : List Elem) (steps : List (List String)) (ct : Int), 0 ≤ ct →
      ∀ (j : Nat) (e : Elem), elems[j]? = some e →
        (RegForm.validateForm elems steps ct).1.1[j]? =
          some { e with invalid := e.invalid ||
            (decide (e.tab = ct.toNat ∧ e.tag = "input") && RegForm.failsCheck e) }) := by
  refine ⟨?_, ?_, ?_⟩
  · intro tabCount elems ct h0 h1 hsucc j e hj htab
    exact AddStudent.validateForm_true_clears tabCount elems ct h0 h1 hsucc j e hj htab
  · intro tabCount elems steps ct h0 h1 j e hj htab
    exact FlagStudent.validateFormF_fst_getElem? tabCount elems steps ct h0 h1 j e hj htab
  · intro elems steps ct h0 j e hj
    exact RegForm.validateFormR_fst_getElem? elems steps ct h0 j e hj

/-- Witness for C5: an add_student field carrying a stale `invalid` mark is
cleared by a successful re-validation. -/
theorem claim_C5_witness :
    ((0 : Int) ≤ 0 ∧
      (AddStudent.validateForm 1
        [⟨"input", "text", "fname", "Alice", false, true, true, 0⟩] 0).2 = true) ∧
    (AddStudent.validateForm 1
      [⟨"input", "text", "fname", "Alice", false, true, true, 0⟩] 0).1[0]? =
      some ⟨"input", "text", "fname", "Alice", false, true, false, 0⟩ :=
  ⟨⟨by decide, by decide⟩,
    claim_C5_reset_marks.1 1 [⟨"input", "text", "fname", "Alice", false, true, true, 0⟩] 0
      (by decide) (by decide) (by decide) 0
      ⟨"input", "text", "fname", "Alice", false, true, true, 0⟩ (by decide) (by decide)⟩

/-- C6 counterexample: the add_student (DOMContentLoaded) `validateForm`
returns success without marking the step indicator — here a successful
`nextPrev(1)` submits the one-tab form and the indicator entry still carries
no `finish` class. -/
theorem claim_C6_counterexample :
    (AddStudent.validateForm 1
      [⟨"input", "text", "fname", "Alice", false, true, false, 0⟩] 0).2 = true ∧
    (AddStudent.nextPrev
      (WState.mk 0 [true] [⟨"input", "text", "fname", "Alice", false, true, false, 0⟩]
        [["step"]] false "Submit" false [0]) 1).1.steps = [["step"]] ∧
    (AddStudent.nextPrev
      (WState.mk 0 [true] [⟨"input", "text", "fname", "Alice", false, true, false, 0⟩]
        [["step"]] false "Submit" false [0]) 1).1.submitted = true ∧
    ¬("finish" ∈ (["step"] : List String)) := by
  exact ⟨by decide, by decide, by decide, by decide⟩

/-- C6 (amended): in the flag_student and regForm variants a successful
`validateForm` marks the step-indicator entry of the current tab `finish`
(and a failing one leaves the indicator unchanged); the token-adding
operations indeed put `finish` into the entry.  The add_student
(DOMContentLoaded) variant never writes `finish`: its `nextPrev` only ever
changes the indicator through `fixStepIndicator`, which preserves every
entry's `finish` membership. -/
theorem claim_C6_finish_mark :
    (∀ (tabCount : Nat) (elems : List Elem) (steps : List (List String)) (ct : Int),
      0 ≤ ct → ct < (tabCount : Int) →
      ((FlagStudent.validateForm tabCount elems steps ct).2 = true →
        (FlagStudent.validateForm tabCount elems steps ct).1.2 =
          modifyIdxI steps ct (clAdd "finish")) ∧
      ((FlagStudent.validateForm tabCount elems steps ct).2 = false →
        (FlagStudent.validateForm tabCount elems steps ct).1.2 = steps)) ∧
    (∀ (elems : List Elem) (steps : List (List String)) (ct : Int), 0 ≤ ct →
      ((RegForm.validateForm elems steps ct).2 = true →
        (RegForm.validateForm elems steps ct).1.2 =
          modifyIdxI steps ct (fun cls => cls ++ ["finish"])) ∧
      ((RegForm.validateForm elems steps ct).2 = false →
        (RegForm.validateForm elems steps ct).1.2 = steps)) ∧
    (∀ cls : List String, "finish" ∈ clAdd "finish" cls ∧ "finish" ∈ cls ++ ["finish"]) ∧
    (∀ (s : WState) (n : Int),
      (AddStudent.nextPrev s n).1.steps = s.steps ∨
        (AddStudent.nextPrev s n).1.steps =
          AddStudent.fixStepIndicator s.steps (s.currentTab + n)) ∧
    (∀ (steps : List (List String)) (n : Int) (j : Nat),
      ((AddStudent.fixStepIndicator steps n)[j]?).map (fun cls => decide ("finish" ∈ cls)) =
        (steps[j]?).map (fun cls => decide ("finish" ∈ cls))) := by
  refine ⟨?_, ?_, ?_, ?_, ?_⟩
  · intro tabCount elems steps ct h0 h1
    rw [FlagStudent.validateFormF_expand _ _ _ _ h0 h1]
    split
    · exact ⟨fun _ => rfl, fun hf => Bool.noConfusion hf⟩
    · exact ⟨fun ht => Bool.noConfusion ht, fun _ => rfl⟩
  · intro elems steps ct h0
    rw [RegForm.validateFormR_expand _ _ _ h0]
    split
    · exact ⟨fun _ => rfl, fun hf => Bool.noConfusion hf⟩
    · exact ⟨fun ht => Bool.noConfusion ht, fun _ => rfl⟩
  · intro cls
    exact ⟨mem_clAdd_self _ _, List.mem_append_right _ (List.mem_singleton.mpr rfl)⟩
  · exact AddStudent.nextPrev_steps_or
  · intro steps n j
    rw [AddStudent.fixStepIndicator_getElem?]
    by_cases hnj : n = (j : Int)
    · rw [if_pos hnj]
      cases hsj : steps[j]? with
      | none => rfl
      | some cls =>
        simp only [Option.map_some']
        congr 1
        apply decide_eq_decide.mpr
        rw [List.mem_append,
          List.mem_erase_of_ne (show "finish" ≠ "active" by decide)]
        simp
    · rw [if_neg hnj]
      cases hsj : steps[j]? with
      | none => rfl
      | some cls =>
        simp only [Option.map_some']
        congr 1
        apply decide_eq_decide.mpr
        rw [List.mem_erase_of_ne (show "finish" ≠ "active" by decide)]

/-- Witness for C6: a successful flag_student validation marks the single
step-indicator entry `finish`. -/
theorem claim_C6_witness :
    ((0 : Int) ≤ 0 ∧
      (FlagStudent.validateForm 1
        [⟨"input", "text", "fname", "Alice", false, true, false, 0⟩] [["step"]] 0).2 = true) ∧
    (FlagStudent.validateForm 1
      [⟨"input", "text", "fname", "Alice", false, true, false, 0⟩] [["step"]] 0).1.2 =
      modifyIdxI [["step"]] 0 (clAdd "finish") ∧
    modifyIdxI [["step"]] 0 (clAdd "finish") = [["step", "finish"]] :=
  ⟨⟨by decide, by decide⟩,
    (claim_C6_finish_mark.1 1 [⟨"input", "text", "fname", "Alice", false, true, false, 0⟩]
      [["step"]] 0 (by decide) (by decide)).1 (by decide),
    by decide⟩

/-- C7: after `fixStepIndicator(n)` with `n` in range, exactly one
step-indicator entry carries the `active` class, namely the entry at `n`
(every existing entry carries it iff its index is `n`, and the entry at `n`
exists and carries it), and the update is idempotent.  This holds
unconditionally for the flag_student `classList` variant, and for the
add_student class-string variant for entries that do not carry a duplicated
`active` token (as is the case for every state the wizard itself produces). -/
theorem claim_C7_active_indicator :
    (∀ (steps : List (List String)) (n : Int), 0 ≤ n → n < (steps.length : Int) →
      (∀ (j : Nat) (cls : List String),
        (FlagStudent.fixStepIndicator steps n)[j]? = some cls →
          ("active" ∈ cls ↔ (j : Int) = n)) ∧
      (∃ cls, (FlagStudent.fixStepIndicator steps n)[n.toNat]? = some cls ∧
        "active" ∈ cls) ∧
      FlagStudent.fixStepIndicator (FlagStudent.fixStepIndicator steps n) n =
        FlagStudent.fixStepIndicator steps n) ∧
    (∀ (steps : List (List String)) (n : Int), 0 ≤ n → n < (steps.length : Int) →
      (∀ cls ∈ steps, cls.count "active" ≤ 1) →
      (∀ (j : Nat) (cls : List String),
        (AddStudent.fixStepIndicator steps n)[j]? = some cls →
          ("active" ∈ cls ↔ (j : Int) = n)) ∧
      (∃ cls, (AddStudent.fixStepIndicator steps n)[n.toNat]? = some cls ∧
        "active" ∈ cls) ∧
      AddStudent.fixStepIndicator (AddStudent.fixStepIndicator steps n) n =
        AddStudent.fixStepIndicator steps n) := by
  constructor
  · intro steps n h0 h1
    exact ⟨fun j cls hj => FlagStudent.fixStepIndicatorF_active steps n j cls hj,
      FlagStudent.fixStepIndicatorF_exists steps n h0 h1,
      FlagStudent.fixStepIndicatorF_idem steps n⟩
  · intro steps n h0 h1 hcount
    exact ⟨fun j cls hj => AddStudent.fixStepIndicator_active steps n hcount j cls hj,
      AddStudent.fixStepIndicator_exists steps n h0 h1,
      AddStudent.fixStepIndicator_idem steps n hcount⟩

/-- Witness for C7 on a concrete two-entry indicator. -/
theorem claim_C7_witness :
    ((0 : Int) ≤ 0 ∧ (0 : Int) < (([["step"], ["step"]] : List (List String)).length : Int) ∧
      (∀ cls ∈ ([["step"], ["step"]] : List (List String)), cls.count "active" ≤ 1)) ∧
    AddStudent.fixStepIndicator (AddStudent.fixStepIndicator [["step"], ["step"]] 0) 0 =
      AddStudent.fixStepIndicator [["step"], ["step"]] 0 ∧
    FlagStudent.fixStepIndicator (FlagStudent.fixStepIndicator [["step"], ["step"]] 0) 0 =
      FlagStudent.fixStepIndicator [["step"], ["step"]] 0 :=
  ⟨⟨by decide, by decide, by decide⟩,
    (claim_C7_active_indicator.2 [["step"], ["step"]] 0 (by decide) (by decide)
      (by decide)).2.2,
    (claim_C7_active_indicator.1 [["step"], ["step"]] 0 (by decide) (by decide)).2.2⟩

/-- C8: every wizard state of the add_student wizard reachable through the
user-invocable operations (initial `showTab(0)`, then `nextPrev(1)` and —
only while the previous control is shown — `nextPrev(-1)`) satisfies
`0 ≤ currentStep < stepCount` while the wizard is active (not submitted). -/
theorem claim_C8_step_invariant :
    ∀ s : WState, Reach s → s.submitted = false →
      0 ≤ s.currentTab ∧ s.currentTab < (s.tabVisible.length : Int) := by
  intro s h hsub
  obtain ⟨-, hinv⟩ := reach_inv h
  obtain ⟨h0, h1, -⟩ := hinv hsub
  exact ⟨h0, h1⟩

/-- Witness for C8 at the concrete initial state of a one-tab wizard. -/
theorem claim_C8_witness :
    (AddStudent.showTab (WState.mk 0 [true] [] [] false "" false []) 0).submitted = false ∧
    0 ≤ (AddStudent.showTab (WState.mk 0 [true] [] [] false "" false []) 0).currentTab ∧
    (AddStudent.showTab (WState.mk 0 [true] [] [] false "" false []) 0).currentTab <
      ((AddStudent.showTab
        (WState.mk 0 [true] [] [] false "" false []) 0).tabVisible.length : Int) :=
  ⟨by decide,
    (claim_C8_step_invariant _ (Reach.init [true] [] [] false "" (by decide)) (by decide)).1,
    (claim_C8_step_invariant _ (Reach.init [true] [] [] false "" (by decide)) (by decide)).2⟩

/-- C9: after `updateSubjectOptions`, an option of a present dropdown is
disabled exactly when its value is non-empty, differs from that dropdown's
own current value, and is currently selected in some dropdown of the group;
in particular the empty option and the dropdown's own selection are never
disabled. -/
theorem claim_C9_subject_options :
    ∀ (selects : List (Option SelectEl)) (i : Nat) (sel : SelectEl),
      selects[i]? = some (some sel) →
      ∀ (j : Nat) (o : SubjectOpt), sel.options[j]? = some o →
        ∃ sel', (updateSubjectOptions selects)[i]? = some (some sel') ∧
          sel'.value = sel.value ∧
          sel'.options[j]? = some { o with disabled := decide (o.value ≠ "" ∧ o.value ≠ sel.value ∧ o.value ∈ selectedSubjects selects) } ∧
          ((o.value = "" ∨ o.value = sel.value) →
            sel'.options[j]? = some { o with disabled := false }) := by
  intro selects i sel hi j o ho
  refine ⟨updateOptionsOf (selectedSubjects selects) sel, ?_, rfl, ?_, ?_⟩
  · unfold updateSubjectOptions
    rw [List.getElem?_map, hi]
    rfl
  · show ((sel.options.map _)[j]?) = _
    rw [List.getElem?_map, ho]
    simp only [Option.map_some']
    congr 1
    by_cases h1 : (o.value == "" || o.value == sel.value) = true
    · rw [if_pos h1]
      simp only [Bool.or_eq_true, beq_iff_eq] at h1
      rcases h1 with h | h <;> simp [h]
    · rw [if_neg h1]
      simp only [Bool.or_eq_true, beq_iff_eq, not_or] at h1
      by_cases h2 : (selectedSubjects selects).contains o.value = true
      · rw [if_pos h2]
        have hm : o.value ∈ selectedSubjects selects := List.elem_iff.mp h2
        simp [h1.1, h1.2, hm]
      · rw [if_neg h2]
        have hm : o.value ∉ selectedSubjects selects :=
          fun hmm => h2 (List.elem_iff.mpr hmm)
        simp [hm]
  · intro hor
    show ((sel.options.map _)[j]?) = _
    rw [List.getElem?_map, ho]
    simp only [Option.map_some']
    congr 1
    rw [if_pos (by rcases hor with h | h <;> simp [h])]

/-- Witness for C9 on two concrete dropdowns sharing the subject pool. -/
theorem claim_C9_witness :
    ([some ⟨"maths", [⟨"", false⟩, ⟨"maths", true⟩, ⟨"bio", false⟩]⟩,
      some ⟨"bio", [⟨"", false⟩, ⟨"maths", false⟩, ⟨"bio", false⟩]⟩,
      (none : Option SelectEl)][0]? =
        some (some ⟨"maths", [⟨"", false⟩, ⟨"maths", true⟩, ⟨"bio", false⟩]⟩)) ∧
    ∃ sel',
      (updateSubjectOptions
        [some ⟨"maths", [⟨"", false⟩, ⟨"maths", true⟩, ⟨"bio", false⟩]⟩,
         some ⟨"bio", [⟨"", false⟩, ⟨"maths", false⟩, ⟨"bio", false⟩]⟩,
         (none : Option SelectEl)])[0]? = some (some sel') ∧
      sel'.options[2]? = some ⟨"bio", true⟩ := by
  refine ⟨by decide, ?_⟩
  obtain ⟨sel', h1, -, h3, -⟩ := claim_C9_subject_options
    [some ⟨"maths", [⟨"", false⟩, ⟨"maths", true⟩, ⟨"bio", false⟩]⟩,
     some ⟨"bio", [⟨"", false⟩, ⟨"maths", false⟩, ⟨"bio", false⟩]⟩,
     (none : Option SelectEl)] 0
    ⟨"maths", [⟨"", false⟩, ⟨"maths", true⟩, ⟨"bio", false⟩]⟩ (by decide) 2
    ⟨"bio", false⟩ (by decide)
  refine ⟨sel', h1, ?_⟩
  rw [h3]
  decide

/-- C10: `validateDateOfBirth` returns `true` and clears nothing when the
dob input or a checked yeargroup radio is absent; with both present it
faults (TypeError on reading `.min` of `undefined`) for any checked
yeargroup other than 12 or 13; for yeargroup 12 (resp. 13) it returns
`false` and clears the dob input exactly when the computed age falls
outside 16-17 (resp. 17-18), and returns `true` otherwise. -/
theorem claim_C10_dob_validation :
    (∀ (y : Option Int) (today : SDate),
      validateDateOfBirth none y today = .ok true false) ∧
    (∀ (d : SDate) (today : SDate),
      validateDateOfBirth (some d) none today = .ok true false) ∧
    (∀ (d : SDate) (yg : Int) (today : SDate), yg ≠ 12 → yg ≠ 13 →
      validateDateOfBirth (some d) (some yg) today = .fault) ∧
    (∀ (d : SDate) (today : SDate),
      validateDateOfBirth (some d) (some 12) today =
        (if computeAge today d < 16 ∨ 17 < computeAge today d then .ok false true
         else .ok true false)) ∧
    (∀ (d : SDate) (today : SDate),
      validateDateOfBirth (some d) (some 13) today =
        (if computeAge today d < 17 ∨ 18 < computeAge today d then .ok false true
         else .ok true false)) := by
  refine ⟨fun y today => rfl, fun d today => rfl, ?_, ?_, ?_⟩
  · intro d yg today h12 h13
    simp only [validateDateOfBirth, validAges]
    rw [if_neg h12, if_neg h13]
  · intro d today
    simp [validateDateOfBirth, validAges]
  · intro d today
    simp [validateDateOfBirth, validAges]

/-- Witness for C10: a checked yeargroup of 11 faults. -/
theorem claim_C10_witness :
    ((11 : Int) ≠ 12 ∧ (11 : Int) ≠ 13) ∧
    validateDateOfBirth (some ⟨2009, 5, 1⟩) (some 11) ⟨2026, 10, 12⟩ = .fault :=
  ⟨⟨by decide, by decide⟩,
    claim_C10_dob_validation.2.2.1 ⟨2009, 5, 1⟩ 11 ⟨2026, 10, 12⟩ (by decide) (by decide)⟩
